import Mathlib

/-!
# Verification development for the video-editor API (`src/main.py`)

Shallow embedding of the service in `src/main.py`.  External effects are
modelled explicitly:

* the scratch filesystem is an association list from paths to file contents;
* the network (`requests.get` streaming inside `download_video`) and the
  external tool (`subprocess.run` of ffmpeg) are oracles supplied in an `Env`,
  giving the outcome of the i-th download and of the i-th tool invocation;
* Python exceptions become an explicit `Exc` error type threaded with
  `Except`; `subprocess.TimeoutExpired` is a separate constructor from
  `HTTPException`, mirroring the distinct Python exception classes;
* Python floats carrying media timestamps are modelled as rationals;
* every function threads a `St` record holding the filesystem together with
  observation traces (which URLs were downloaded, which ffmpeg commands ran).

Functions keep the names of the Python functions they embed
(`download_video`, `extract_frame`, `clip_and_merge_videos`,
`clip_and_merge`); helper functions factor the straight-line Python blocks.
-/

/-- Which ffmpeg concat strategy produced a merged file (lines 202-238 of
`src/main.py`): the stream-copy fast path or the libx264/aac re-encode
fallback. -/
inductive MergeVia
  | streamCopy
  | reencode
deriving DecidableEq, Repr

/-- Contents of a scratch file, tagged by the operation that wrote it. -/
inductive Content
  | dir
  | downloaded (url : String)
  | incompleteDownload (url : String)
  | clipped (src : String) (startT : Rat) (dur : Rat)
  | manifest (clips : List String)
  | merged (mode : MergeVia) (clips : List String)
deriving DecidableEq, Repr

/-- The scratch filesystem: an association list from absolute paths to file
contents.  The head entry for a path is the current file. -/
abbrev FS := List (String × Content)

/-- Reading a file: first entry for the path. -/
def fsLookup (fs : FS) (p : String) : Option Content :=
  List.lookup p fs

/-- `os.path.exists`. -/
def fsExists (fs : FS) (p : String) : Bool :=
  fs.any (fun e => e.1 == p)

/-- Creating/overwriting a file (`-y` in ffmpeg, `open(..., "w")`). -/
def fsWrite (fs : FS) (p : String) (c : Content) : FS :=
  (p, c) :: fs.filter (fun e => e.1 != p)

/-- `os.unlink` minus the error case: drop every entry at path `p`. -/
def fsErase (fs : FS) (p : String) : FS :=
  fs.filter (fun e => e.1 != p)

/-- Whether path `p` lies inside directory `d` (or is `d` itself):
`d` is a string prefix of `p`. -/
def pathHasPref (d p : String) : Bool :=
  d.data.isPrefixOf p.data

/-- `shutil.rmtree d`: removes the directory entry and everything under it. -/
def fsRmtree (fs : FS) (d : String) : FS :=
  fs.filter (fun e => !(pathHasPref d e.1))

/-- Python exceptions that cross function boundaries in `src/main.py`:
`fastapi.HTTPException(status_code, detail)`, `subprocess.TimeoutExpired`
(raised by `subprocess.run(..., timeout=bound)`), and `FileNotFoundError`
(the error `os.unlink` would raise on a missing file). -/
inductive Exc
  | httpExc (status : Nat) (detail : String)
  | timeoutExpired (bound : Rat)
  | fileNotFound (path : String)
deriving DecidableEq, Repr

/-- Outcome of one call to `requests.get` + streaming copy inside
`download_video` (lines 34-48): failure before the temp file is created
(connection error / bad status), failure while streaming after the temp
file at `tmpPath` was created, or success producing `tmpPath`. -/
inductive DlOutcome
  | connectFail (msg : String)
  | streamFail (tmpPath : String) (msg : String)
  | ok (tmpPath : String)

/-- Outcome of one external-tool process: how long it ran, its exit code and
stderr, and whether it produced its declared output file. -/
structure RunOutcome where
  duration : Rat
  code : Int
  stderr : String
  createsOutput : Bool

/-- Trace record of one ffmpeg invocation, with the arguments that matter:
clip (`-ss`/`-t`/`-c copy`), concat stream-copy, or concat re-encode. -/
inductive FfmpegCmd
  | clip (input : String) (ss : Rat) (t : Rat) (output : String)
  | concatCopy (manifestPath : String) (output : String)
  | concatReencode (manifestPath : String) (output : String)
deriving DecidableEq, Repr

/-- The external world: `dl i` is the outcome of the i-th download of the
request, `run i` the outcome of the i-th tool invocation, `tempDir` the
directory `tempfile.mkdtemp()` returns. -/
structure Env where
  dl : Nat → DlOutcome
  run : Nat → RunOutcome
  tempDir : String

/-- `VideoSection` pydantic model (lines 22-26).  The Python field `section`
is a Lean keyword, rendered `sectionId`. -/
structure VideoSection where
  sectionId : Int
  video_id : Int
  start_time : Rat
  end_time : Rat
deriving DecidableEq, Repr

/-- Request-processing state: the filesystem plus the mutable locals of
`clip_and_merge_videos` (`downloaded_videos`, `clip_files`) and the oracle
cursors / invocation trace. -/
structure St where
  fs : FS
  dlIdx : Nat
  runIdx : Nat
  dlPaths : List String
  clipPaths : List String
  runTrace : List FfmpegCmd
deriving DecidableEq

def St.init (fs0 : FS) : St :=
  { fs := fs0, dlIdx := 0, runIdx := 0, dlPaths := [], clipPaths := [], runTrace := [] }

/-- The path a `DlOutcome` touches on disk, if any. -/
def dlKey : DlOutcome → Option String
  | DlOutcome.connectFail _ => none
  | DlOutcome.streamFail p _ => some p
  | DlOutcome.ok p => some p

/-- `download_video` (lines 34-48): on a connection/status failure nothing is
written; on a mid-stream failure the temp file already exists, partially
written, and the `except` clause wraps the cause into a 400
`Failed to download video` error without deleting it; on success the temp
file holds the body and its path is returned. -/
def download_video (env : Env) (url : String) (st : St) : Except Exc String × St :=
  match env.dl st.dlIdx with
  | DlOutcome.connectFail msg =>
      (Except.error (Exc.httpExc 400 ("Failed to download video: " ++ msg)),
       { st with dlIdx := st.dlIdx + 1 })
  | DlOutcome.streamFail p msg =>
      (Except.error (Exc.httpExc 400 ("Failed to download video: " ++ msg)),
       { st with dlIdx := st.dlIdx + 1, fs := fsWrite st.fs p (Content.incompleteDownload url) })
  | DlOutcome.ok p =>
      (Except.ok p,
       { st with dlIdx := st.dlIdx + 1, fs := fsWrite st.fs p (Content.downloaded url) })

/-- The download loop of `clip_and_merge_videos` (lines 135-138): download
every URL in order, appending each returned path to `downloaded_videos`
(`st.dlPaths`); the first failure aborts the loop. -/
def downloadAll (env : Env) (urls : List String) (st : St) : Except Exc Unit × St :=
  match urls with
  | [] => (Except.ok (), st)
  | url :: rest =>
    match download_video env url st with
    | (Except.error e, st') => (Except.error e, st')
    | (Except.ok p, st') => downloadAll env rest { st' with dlPaths := st'.dlPaths ++ [p] }

/-- The validation loop of `clip_and_merge_videos` (lines 141-151): for each
section, in order, first the `video_id` range check, then the
`start_time`/`end_time` check; the first violation raises a 400. -/
def validate_sections (n : Nat) (parts : List VideoSection) : Option Exc :=
  match parts with
  | [] => none
  | s :: rest =>
    if s.video_id < 0 ∨ (n : Int) ≤ s.video_id then
      some (Exc.httpExc 400
        ("Invalid video_id " ++ toString s.video_id ++ " for section " ++ toString s.sectionId))
    else if s.start_time < 0 ∨ s.end_time ≤ s.start_time then
      some (Exc.httpExc 400 ("Invalid time range for section " ++ toString s.sectionId))
    else validate_sections n rest

/-- `os.path.join(temp_dir, f"clip_{section.section}.mp4")` (line 156). -/
def clip_path_of (tempDir : String) (sid : Int) : String :=
  tempDir ++ ("/clip_" ++ (toString sid ++ ".mp4"))

/-- `os.path.join(temp_dir, "concat_list.txt")` (line 194). -/
def concat_path (tempDir : String) : String :=
  tempDir ++ "/concat_list.txt"

/-- `os.path.join(temp_dir, "merged_video.mp4")` (line 200). -/
def merged_path (tempDir : String) : String :=
  tempDir ++ "/merged_video.mp4"

/-- One iteration of the clipping loop (lines 154-191): build the ffmpeg clip
command, run it with a 300s bound, raise on timeout / non-zero exit /
missing output, otherwise append the clip path to `clip_files`.  The tool
writes its output file when it ran to completion and the oracle says it
produced one. -/
def clipSection (env : Env) (s : VideoSection) (st : St) : Except Exc Unit × St :=
  let video_path := st.dlPaths.getD s.video_id.toNat ""
  let clip_path := clip_path_of env.tempDir s.sectionId
  let dur := s.end_time - s.start_time
  let o := env.run st.runIdx
  let stRun : St :=
    { st with
      runIdx := st.runIdx + 1
      runTrace := st.runTrace ++ [FfmpegCmd.clip video_path s.start_time dur clip_path]
      fs := if o.duration ≤ 300 ∧ o.createsOutput = true then
              fsWrite st.fs clip_path (Content.clipped video_path s.start_time dur)
            else st.fs }
  if 300 < o.duration then
    (Except.error (Exc.timeoutExpired 300), stRun)
  else if o.code ≠ 0 then
    (Except.error (Exc.httpExc 500
       ("Failed to clip section " ++ toString s.sectionId ++ ": " ++ o.stderr)), stRun)
  else if fsExists stRun.fs clip_path = false then
    (Except.error (Exc.httpExc 500
       ("Clip file not created for section " ++ toString s.sectionId)), stRun)
  else
    (Except.ok (), { stRun with clipPaths := stRun.clipPaths ++ [clip_path] })

/-- The clipping loop over all sections, in caller-supplied order. -/
def clipAll (env : Env) (parts : List VideoSection) (st : St) : Except Exc Unit × St :=
  match parts with
  | [] => (Except.ok (), st)
  | s :: rest =>
    match clipSection env s st with
    | (Except.error e, st') => (Except.error e, st')
    | (Except.ok _, st') => clipAll env rest st'

/-- What the concat demuxer reads from the manifest file on disk. -/
def manifestClips (fs : FS) (p : String) : List String :=
  match fsLookup fs p with
  | some (Content.manifest l) => l
  | _ => []

/-- Lines 193-244: write `concat_list.txt` listing `clip_files` in order,
run the stream-copy concat with a 600s bound; if it exits non-zero, run the
re-encode concat with a 600s bound; if that also exits non-zero, raise a 500
carrying its stderr.  The tool derives the merged file from the manifest it
reads on disk. -/
def mergeClips (env : Env) (st : St) : Except Exc Unit × St :=
  let cpath := concat_path env.tempDir
  let opath := merged_path env.tempDir
  let st0 : St := { st with fs := fsWrite st.fs cpath (Content.manifest st.clipPaths) }
  let o1 := env.run st0.runIdx
  let st1 : St :=
    { st0 with
      runIdx := st0.runIdx + 1
      runTrace := st0.runTrace ++ [FfmpegCmd.concatCopy cpath opath]
      fs := if o1.duration ≤ 600 ∧ o1.createsOutput = true then
              fsWrite st0.fs opath (Content.merged MergeVia.streamCopy (manifestClips st0.fs cpath))
            else st0.fs }
  if 600 < o1.duration then
    (Except.error (Exc.timeoutExpired 600), st1)
  else if o1.code ≠ 0 then
    let o2 := env.run st1.runIdx
    let st2 : St :=
      { st1 with
        runIdx := st1.runIdx + 1
        runTrace := st1.runTrace ++ [FfmpegCmd.concatReencode cpath opath]
        fs := if o2.duration ≤ 600 ∧ o2.createsOutput = true then
                fsWrite st1.fs opath (Content.merged MergeVia.reencode (manifestClips st1.fs cpath))
              else st1.fs }
    if 600 < o2.duration then
      (Except.error (Exc.timeoutExpired 600), st2)
    else if o2.code ≠ 0 then
      (Except.error (Exc.httpExc 500 ("Failed to merge videos: " ++ o2.stderr)), st2)
    else
      (Except.ok (), st2)
  else
    (Except.ok (), st1)

/-- Lines 246-253: `os.path.exists(output_path)` check then
`open(output_path, "rb").read()`.  The exists-check plus the read collapse
to one lookup: the read succeeds exactly when the file exists. -/
def readMerged (env : Env) (st3 : St) : Except Exc Content × St :=
  match fsLookup st3.fs (merged_path env.tempDir) with
  | none => (Except.error (Exc.httpExc 500 "Merged video file not created"), st3)
  | some c => (Except.ok c, st3)

/-- The merge-then-read tail of the `try` block. -/
def mergePhase (env : Env) (st2 : St) : Except Exc Content × St :=
  match mergeClips env st2 with
  | (Except.error e, st') => (Except.error e, st')
  | (Except.ok _, st3) => readMerged env st3

/-- The clip-then-merge tail of the `try` block. -/
def clipPhase (env : Env) (parts : List VideoSection) (st1 : St) : Except Exc Content × St :=
  match clipAll env parts st1 with
  | (Except.error e, st') => (Except.error e, st')
  | (Except.ok _, st2) => mergePhase env st2

/-- The validate-then-clip tail of the `try` block. -/
def validatePhase (env : Env) (n : Nat) (parts : List VideoSection) (st1 : St) :
    Except Exc Content × St :=
  match validate_sections n parts with
  | some e => (Except.error e, st1)
  | none => clipPhase env parts st1

/-- The `try` block of `clip_and_merge_videos` (lines 134-253): download all,
validate all, clip all, merge, then check the merged file exists and read it. -/
def run_body (env : Env) (video_urls : List String) (video_parts : List VideoSection)
    (st : St) : Except Exc Content × St :=
  match downloadAll env video_urls st with
  | (Except.error e, st') => (Except.error e, st')
  | (Except.ok _, st1) => validatePhase env video_urls.length video_parts st1

/-- `os.unlink`: raises `FileNotFoundError` when the file is absent. -/
def os_unlink (fs : FS) (p : String) : Except Exc FS :=
  if fsExists fs p = true then Except.ok (fsErase fs p) else Except.error (Exc.fileNotFound p)

/-- One guarded cleanup step (lines 257-263): `if os.path.exists(p): os.unlink(p)`. -/
def cleanupOne (fs : FS) (p : String) : Except Exc FS :=
  if fsExists fs p = true then os_unlink fs p else Except.ok fs

/-- Guarded unlink of a list of paths, in order. -/
def cleanupFiles (fs : FS) (ps : List String) : Except Exc FS :=
  match ps with
  | [] => Except.ok fs
  | p :: rest =>
    match cleanupOne fs p with
    | Except.error e => Except.error e
    | Except.ok fs' => cleanupFiles fs' rest

/-- The whole `finally` block (lines 255-266): unlink every tracked download,
every tracked clip, then `if os.path.exists(temp_dir): shutil.rmtree(temp_dir)`. -/
def cleanupRun (fs : FS) (downloads clips : List String) (tempDir : String) : Except Exc FS :=
  match cleanupFiles fs downloads with
  | Except.error e => Except.error e
  | Except.ok fs1 =>
    match cleanupFiles fs1 clips with
    | Except.error e => Except.error e
    | Except.ok fs2 =>
      Except.ok (if fsExists fs2 tempDir = true then fsRmtree fs2 tempDir else fs2)

/-- `clip_and_merge_videos` (lines 128-266): `tempfile.mkdtemp()`, the `try`
body, and the unconditional `finally` cleanup.  An exception raised inside
`finally` would replace the result, as in Python. -/
def clip_and_merge_videos (env : Env) (video_urls : List String)
    (video_parts : List VideoSection) (st : St) : Except Exc Content × St :=
  let st0 : St := { st with fs := fsWrite st.fs env.tempDir Content.dir }
  let r := run_body env video_urls video_parts st0
  match cleanupRun r.2.fs r.2.dlPaths r.2.clipPaths env.tempDir with
  | Except.ok fs' => (r.1, { r.2 with fs := fs' })
  | Except.error e => (Except.error e, r.2)

/-- Convenience wrapper: run the pipeline from a fresh request state. -/
def camRun (env : Env) (video_urls : List String) (video_parts : List VideoSection)
    (fs0 : FS) : Except Exc Content × St :=
  clip_and_merge_videos env video_urls video_parts (St.init fs0)

/-- `str(subprocess.TimeoutExpired(...))` as interpolated by the catch-all
handler. -/
def timeoutMsg (bound : Rat) : String :=
  "Command ffmpeg timed out after " ++ toString bound ++ " seconds"

/-- The `/clip-and-merge` route handler (lines 269-302): empty-list checks,
then the pipeline; `HTTPException`s pass through, any other exception is
wrapped into a 500 `Internal server error`.  Errors surface as
`(status, detail)` pairs. -/
def clip_and_merge (env : Env) (video_urls : List String)
    (video_parts : List VideoSection) (fs0 : FS) : Except (Nat × String) Content × St :=
  if video_urls.isEmpty = true then
    (Except.error (400, "video_urls cannot be empty"), St.init fs0)
  else if video_parts.isEmpty = true then
    (Except.error (400, "video_parts cannot be empty"), St.init fs0)
  else
    match clip_and_merge_videos env video_urls video_parts (St.init fs0) with
    | (Except.ok c, st') => (Except.ok c, st')
    | (Except.error (Exc.httpExc s d), st') => (Except.error (s, d), st')
    | (Except.error (Exc.timeoutExpired b), st') =>
        (Except.error (500, "Internal server error: " ++ timeoutMsg b), st')
    | (Except.error (Exc.fileNotFound p), st') =>
        (Except.error (500, "Internal server error: [Errno 2] No such file or directory: " ++ p), st')

/-- An opened `cv2.VideoCapture`: whether opening succeeded, the reported
fps and frame count, and the decoder (frame index ↦ decoded frame, `none`
for a failed read).  Decoded frames are abstract tokens. -/
structure Capture where
  opened : Bool
  fps : Rat
  total_frames : Int
  readFrame : Int → Option Nat

/-- `duration = total_frames / fps if fps > 0 else 0` (line 61). -/
def durationOf (cap : Capture) : Rat :=
  if 0 < cap.fps then (cap.total_frames : Rat) / cap.fps else 0

/-- The f-string of line 68 (float formatting abstracted as `toString`). -/
def timeExceedsMsg (t d : Rat) : String :=
  "Time " ++ toString t ++ "s exceeds video duration " ++ toString d ++ "s"

/-- Python `int(...)` truncation toward zero on a rational. -/
def pyTrunc (q : Rat) : Int :=
  Int.tdiv q.num (q.den : Int)

/-- `extract_frame` (lines 51-92).  The second component reports whether
`cap.release()` was called before returning/raising; in the source it is
called at line 78 only, after the seek-and-read, so the open-failure and
time-validation raises leave the handle open.  PNG encoding of the decoded
frame is the identity on the abstract frame token. -/
def extract_frame (cap : Capture) (time_seconds : Rat) : Except Exc Nat × Bool :=
  if cap.opened = false then
    (Except.error (Exc.httpExc 400 "Failed to open video file"), false)
  else
    let duration := durationOf cap
    if time_seconds < 0 then
      (Except.error (Exc.httpExc 400 "Time must be non-negative"), false)
    else if 0 < duration ∧ duration < time_seconds then
      (Except.error (Exc.httpExc 400 (timeExceedsMsg time_seconds duration)), false)
    else
      let frame_number := pyTrunc (time_seconds * cap.fps)
      match cap.readFrame frame_number with
      | none => (Except.error (Exc.httpExc 400 "Failed to extract frame from video"), true)
      | some fr => (Except.ok fr, true)

/-- A section is invalid when the validation loop would reject it. -/
def badSection (n : Nat) (s : VideoSection) : Prop :=
  s.video_id < 0 ∨ (n : Int) ≤ s.video_id ∨ s.start_time < 0 ∨ s.end_time ≤ s.start_time

deriving instance DecidableEq for Except

/-- How the `/clip-and-merge` handler maps a pipeline outcome to an HTTP
response: `HTTPException`s pass through, other exceptions become the
catch-all 500 wrapper. -/
def excToResp : Except Exc Content → Except (Nat × String) Content
  | Except.ok c => Except.ok c
  | Except.error (Exc.httpExc s d) => Except.error (s, d)
  | Except.error (Exc.timeoutExpired b) =>
      Except.error (500, "Internal server error: " ++ timeoutMsg b)
  | Except.error (Exc.fileNotFound p) =>
      Except.error (500, "Internal server error: [Errno 2] No such file or directory: " ++ p)

/-! ## Concrete environments used by counterexamples and witnesses -/

/-- All downloads succeed, every tool run succeeds instantly. -/
def envC1 : Env :=
  ⟨fun _ => DlOutcome.ok "/tmp/c1.mp4", fun _ => ⟨1, 0, "", true⟩, "/scratch/c1"⟩

def partsC1 : List VideoSection := [⟨1, 1, 0, 2⟩]

def envC2w : Env :=
  ⟨fun _ => DlOutcome.ok "/tmp/c2.mp4", fun _ => ⟨1, 0, "", true⟩, "/scratch/c2"⟩

def envC3w : Env :=
  ⟨fun _ => DlOutcome.ok "/tmp/c3.mp4", fun _ => ⟨1, 0, "", true⟩, "/scratch/c3"⟩

def envC4w : Env :=
  ⟨fun _ => DlOutcome.ok "/tmp/c4.mp4", fun _ => ⟨1, 0, "", true⟩, "/scratch/c4"⟩

/-- Clip run succeeds; the stream-copy merge run exits 0 with the given
stderr but produces no output file. -/
def envC5s (serr : String) : Env :=
  ⟨fun _ => DlOutcome.ok "/tmp/c5.mp4",
   fun i => if i = 0 then ⟨1, 0, "", true⟩ else ⟨1, 0, serr, false⟩, "/scratch/c5"⟩

def envC5 : Env := envC5s "boom"

def envC5w : Env :=
  ⟨fun _ => DlOutcome.ok "/tmp/c5w.mp4", fun _ => ⟨1, 0, "", true⟩, "/scratch/c5w"⟩

/-- First tool run exceeds the 300s clip bound. -/
def envC8w : Env :=
  ⟨fun _ => DlOutcome.ok "/tmp/c8.mp4",
   fun i => if i = 0 then ⟨301, 0, "", true⟩ else ⟨1, 0, "", true⟩, "/scratch/c8"⟩

def capC6 : Capture :=
  { opened := true, fps := 30, total_frames := 300, readFrame := fun _ => some 0 }

def capC6d : Capture :=
  { opened := true, fps := 30, total_frames := 300, readFrame := fun _ => none }

/-- A container reporting a positive fps but zero frames. -/
def capC7 : Capture :=
  { opened := true, fps := 30, total_frames := 0, readFrame := fun _ => some 7 }

def capC7w : Capture :=
  { opened := true, fps := 30, total_frames := 300, readFrame := fun _ => some 0 }

def envC9 : Env :=
  ⟨fun _ => DlOutcome.ok "/tmp/c9.mp4", fun _ => ⟨1, 0, "", true⟩, "/scratch/c9"⟩

/-- Two sections sharing `sectionId = 5`, with different time ranges. -/
def partsC9 : List VideoSection := [⟨5, 0, 0, 2⟩, ⟨5, 0, 3, 4⟩]

/-- The state right after the download phase of a one-source request. -/
def stC9 : St :=
  { fs := fsWrite (fsWrite [] "/scratch/c9" Content.dir) "/tmp/c9.mp4" (Content.downloaded "u")
    dlIdx := 1, runIdx := 0, dlPaths := ["/tmp/c9.mp4"], clipPaths := [], runTrace := [] }

def envC10w : Env :=
  ⟨fun _ => DlOutcome.streamFail "/tmp/c10.mp4" "connection reset",
   fun _ => ⟨1, 0, "", true⟩, "/scratch/c10"⟩

/-! ## Filesystem lemmas -/

theorem fsLookup_write_self (fs : FS) (p : String) (c : Content) :
    fsLookup (fsWrite fs p c) p = some c := by
  simp [fsLookup, fsWrite]

theorem fsExists_iff (fs : FS) (p : String) :
    fsExists fs p = true ↔ ∃ e ∈ fs, e.1 = p := by
  simp [fsExists, List.any_eq_true]

theorem fsExists_of_mem {fs : FS} {e : String × Content} (h : e ∈ fs) :
    fsExists fs e.1 = true :=
  (fsExists_iff fs e.1).2 ⟨e, h, rfl⟩

theorem mem_fsWrite_self (fs : FS) (p : String) (c : Content) :
    (p, c) ∈ fsWrite fs p c := by
  simp [fsWrite]

theorem mem_fsWrite_of_ne {fs : FS} {e : String × Content} {p : String} (c : Content)
    (hmem : e ∈ fs) (hne : e.1 ≠ p) : e ∈ fsWrite fs p c := by
  simp only [fsWrite, List.mem_cons, List.mem_filter, bne_iff_ne]
  exact Or.inr ⟨hmem, hne⟩

theorem mem_fsErase {fs : FS} {e : String × Content} {p : String} :
    e ∈ fsErase fs p ↔ e ∈ fs ∧ e.1 ≠ p := by
  simp [fsErase, List.mem_filter, bne_iff_ne]

theorem mem_fsRmtree {fs : FS} {e : String × Content} {d : String} :
    e ∈ fsRmtree fs d ↔ e ∈ fs ∧ pathHasPref d e.1 = false := by
  simp [fsRmtree, List.mem_filter]

theorem fsExists_false_of_not_mem {fs : FS} {p : String} (h : ∀ e ∈ fs, e.1 ≠ p) :
    fsExists fs p = false := by
  cases hb : fsExists fs p
  · rfl
  · obtain ⟨e, he, hp⟩ := (fsExists_iff _ _).1 hb
    exact absurd hp (h e he)

theorem fsExists_erase_self (fs : FS) (p : String) :
    fsExists (fsErase fs p) p = false := by
  apply fsExists_false_of_not_mem
  intro e he
  exact (mem_fsErase.1 he).2

theorem fsExists_false_mono {fs fs' : FS} {p : String} (hsub : ∀ e, e ∈ fs' → e ∈ fs)
    (h : fsExists fs p = false) : fsExists fs' p = false := by
  apply fsExists_false_of_not_mem
  intro e he hp
  have h2 := fsExists_of_mem (hsub e he)
  rw [hp, h] at h2
  exact absurd h2 (by decide)

/-! ## Path lemmas -/

theorem pathHasPref_refl (s : String) : pathHasPref s s = true := by
  simp [pathHasPref]

theorem ne_of_not_pref {t p : String} (h : pathHasPref t p = false) : p ≠ t := by
  intro he
  rw [he, pathHasPref_refl] at h
  exact absurd h (by decide)

theorem str_append_ne_left (t s : String) (h : s.length ≠ 0) : t ++ s ≠ t := by
  intro he
  apply h
  have hl := congrArg String.length he
  rw [String.length_append] at hl
  omega

theorem clip_path_of_ne (tempDir : String) (sid : Int) :
    clip_path_of tempDir sid ≠ tempDir := by
  apply str_append_ne_left
  rw [String.length_append, String.length_append]
  have h6 : ("/clip_" : String).length = 6 := rfl
  omega

theorem concat_path_ne (tempDir : String) : concat_path tempDir ≠ tempDir := by
  apply str_append_ne_left
  have h : ("/concat_list.txt" : String).length = 16 := rfl
  omega

theorem merged_path_ne (tempDir : String) : merged_path tempDir ≠ tempDir := by
  apply str_append_ne_left
  have h : ("/merged_video.mp4" : String).length = 17 := rfl
  omega

/-! ## Cleanup lemmas -/

theorem cleanupOne_eq (fs : FS) (p : String) :
    cleanupOne fs p = Except.ok (if fsExists fs p = true then fsErase fs p else fs) := by
  unfold cleanupOne os_unlink
  by_cases h : fsExists fs p = true <;> simp [h]

theorem cleanupFiles_cons (fs : FS) (p : String) (rest : List String) :
    cleanupFiles fs (p :: rest) =
      cleanupFiles (if fsExists fs p = true then fsErase fs p else fs) rest := by
  show (match cleanupOne fs p with
        | Except.error e => Except.error e
        | Except.ok fs1 => cleanupFiles fs1 rest) =
      cleanupFiles (if fsExists fs p = true then fsErase fs p else fs) rest
  rw [cleanupOne_eq]

theorem cleanupFiles_spec (ps : List String) : ∀ fs : FS,
    ∃ fs', cleanupFiles fs ps = Except.ok fs' ∧
      (∀ e, e ∈ fs' → e ∈ fs) ∧
      (∀ p, p ∈ ps → fsExists fs' p = false) ∧
      (∀ e, e ∈ fs → (∀ p, p ∈ ps → e.1 ≠ p) → e ∈ fs') := by
  induction ps with
  | nil =>
    intro fs
    exact ⟨fs, rfl, fun e h => h, by simp, fun e h _ => h⟩
  | cons p rest ih =>
    intro fs
    by_cases h : fsExists fs p = true
    · obtain ⟨fs', heq, hsub, habs, hpres⟩ := ih (fsErase fs p)
      have hstep : cleanupFiles fs (p :: rest) = cleanupFiles (fsErase fs p) rest := by
        rw [cleanupFiles_cons, if_pos h]
      refine ⟨fs', by rw [hstep]; exact heq, ?_, ?_, ?_⟩
      · intro e he
        exact (mem_fsErase.1 (hsub e he)).1
      · intro q hq
        rcases List.mem_cons.1 hq with hq | hq
        · rw [hq]
          exact fsExists_false_mono hsub (fsExists_erase_self fs p)
        · exact habs q hq
      · intro e he hne
        exact hpres e (mem_fsErase.2 ⟨he, hne p (List.mem_cons_self p rest)⟩)
          (fun q hq => hne q (List.mem_cons_of_mem _ hq))
    · obtain ⟨fs', heq, hsub, habs, hpres⟩ := ih fs
      have hstep : cleanupFiles fs (p :: rest) = cleanupFiles fs rest := by
        rw [cleanupFiles_cons, if_neg h]
      have hpfalse : fsExists fs p = false := by
        cases hb : fsExists fs p
        · rfl
        · exact absurd hb h
      refine ⟨fs', by rw [hstep]; exact heq, hsub, ?_,
        fun e he hne => hpres e he (fun q hq => hne q (List.mem_cons_of_mem _ hq))⟩
      intro q hq
      rcases List.mem_cons.1 hq with hq | hq
      · rw [hq]
        exact fsExists_false_mono hsub hpfalse
      · exact habs q hq

theorem cleanupRun_eq (fs : FS) (d c : List String) (t : String) (fs1 fs2 : FS)
    (h1 : cleanupFiles fs d = Except.ok fs1) (h2 : cleanupFiles fs1 c = Except.ok fs2) :
    cleanupRun fs d c t =
      Except.ok (if fsExists fs2 t = true then fsRmtree fs2 t else fs2) := by
  show (match cleanupFiles fs d with
        | Except.error e => Except.error e
        | Except.ok fsa =>
          match cleanupFiles fsa c with
          | Except.error e => Except.error e
          | Except.ok fsb => Except.ok (if fsExists fsb t = true then fsRmtree fsb t else fsb)) =
      Except.ok (if fsExists fs2 t = true then fsRmtree fs2 t else fs2)
  rw [h1]
  show (match cleanupFiles fs1 c with
        | Except.error e => Except.error e
        | Except.ok fsb => Except.ok (if fsExists fsb t = true then fsRmtree fsb t else fsb)) =
      Except.ok (if fsExists fs2 t = true then fsRmtree fs2 t else fs2)
  rw [h2]

theorem cleanupRun_spec (fs : FS) (d c : List String) (t : String) :
    ∃ fs', cleanupRun fs d c t = Except.ok fs' ∧
      (∀ e, e ∈ fs' → e ∈ fs) ∧
      (∀ p, p ∈ d → fsExists fs' p = false) ∧
      (∀ p, p ∈ c → fsExists fs' p = false) ∧
      fsExists fs' t = false ∧
      (∀ cc, (t, cc) ∈ fs → (∀ p, p ∈ d → p ≠ t) → (∀ p, p ∈ c → p ≠ t) →
        ∀ e, e ∈ fs' → pathHasPref t e.1 = false) := by
  obtain ⟨fs1, h1, hsub1, habs1, hpres1⟩ := cleanupFiles_spec d fs
  obtain ⟨fs2, h2, hsub2, habs2, hpres2⟩ := cleanupFiles_spec c fs1
  by_cases ht : fsExists fs2 t = true
  · refine ⟨fsRmtree fs2 t, ?_, ?_, ?_, ?_, ?_, ?_⟩
    · rw [cleanupRun_eq fs d c t fs1 fs2 h1 h2, if_pos ht]
    · intro e he
      exact hsub1 _ (hsub2 _ (mem_fsRmtree.1 he).1)
    · intro p hp
      exact fsExists_false_mono (fun e he => hsub2 _ (mem_fsRmtree.1 he).1) (habs1 p hp)
    · intro p hp
      exact fsExists_false_mono (fun e he => (mem_fsRmtree.1 he).1) (habs2 p hp)
    · apply fsExists_false_of_not_mem
      intro e he
      exact ne_of_not_pref (mem_fsRmtree.1 he).2
    · intro cc _ _ _ e he
      exact (mem_fsRmtree.1 he).2
  · have htf : fsExists fs2 t = false := by
      cases hb : fsExists fs2 t
      · rfl
      · exact absurd hb ht
    refine ⟨fs2, ?_, fun e he => hsub1 _ (hsub2 _ he), ?_, habs2, htf, ?_⟩
    · rw [cleanupRun_eq fs d c t fs1 fs2 h1 h2, if_neg ht]
    · intro p hp
      exact fsExists_false_mono hsub2 (habs1 p hp)
    · intro cc hmem hd hc e he
      exfalso
      have hm1 : (t, cc) ∈ fs1 := hpres1 (t, cc) hmem (fun q hq hqt => (hd q hq) hqt.symm)
      have hm2 : (t, cc) ∈ fs2 := hpres2 (t, cc) hm1 (fun q hq hqt => (hc q hq) hqt.symm)
      have := fsExists_of_mem hm2
      rw [htf] at this
      exact absurd this (by decide)

theorem fsExists_write_self (fs : FS) (p : String) (c : Content) :
    fsExists (fsWrite fs p c) p = true :=
  fsExists_of_mem (mem_fsWrite_self fs p c)

/-! ## Download lemmas -/

theorem downloadAll_cons (env : Env) (url : String) (rest : List String) (st : St) :
    downloadAll env (url :: rest) st =
      match download_video env url st with
      | (Except.error e, st') => (Except.error e, st')
      | (Except.ok p, st') => downloadAll env rest { st' with dlPaths := st'.dlPaths ++ [p] } :=
  rfl

theorem downloadAll_pres (env : Env) : ∀ (urls : List String) (st : St),
    ((downloadAll env urls st).2.runTrace = st.runTrace) ∧
    ((downloadAll env urls st).2.clipPaths = st.clipPaths) ∧
    ((downloadAll env urls st).2.runIdx = st.runIdx) ∧
    (∀ p, p ∈ (downloadAll env urls st).2.dlPaths →
       p ∈ st.dlPaths ∨ ∃ i, env.dl i = DlOutcome.ok p) ∧
    (∀ e, e ∈ st.fs → (∀ i, dlKey (env.dl i) ≠ some e.1) →
       e ∈ (downloadAll env urls st).2.fs) := by
  intro urls
  induction urls with
  | nil =>
    intro st
    exact ⟨rfl, rfl, rfl, fun p hp => Or.inl hp, fun e he _ => he⟩
  | cons url rest ih =>
    intro st
    cases hdl : env.dl st.dlIdx with
    | connectFail msg =>
      have heq : downloadAll env (url :: rest) st =
          (Except.error (Exc.httpExc 400 ("Failed to download video: " ++ msg)),
           { st with dlIdx := st.dlIdx + 1 }) := by
        rw [downloadAll_cons]
        unfold download_video
        rw [hdl]
      rw [heq]
      exact ⟨rfl, rfl, rfl, fun p hp => Or.inl hp, fun e he _ => he⟩
    | streamFail q msg =>
      have heq : downloadAll env (url :: rest) st =
          (Except.error (Exc.httpExc 400 ("Failed to download video: " ++ msg)),
           { st with
             dlIdx := st.dlIdx + 1
             fs := fsWrite st.fs q (Content.incompleteDownload url) }) := by
        rw [downloadAll_cons]
        unfold download_video
        rw [hdl]
      rw [heq]
      refine ⟨rfl, rfl, rfl, fun p hp => Or.inl hp, ?_⟩
      intro e he hk
      apply mem_fsWrite_of_ne _ he
      intro hq
      exact hk st.dlIdx (by rw [hdl]; simp [dlKey, hq])
    | ok q =>
      have heq : downloadAll env (url :: rest) st =
          downloadAll env rest
            { st with
              dlIdx := st.dlIdx + 1
              fs := fsWrite st.fs q (Content.downloaded url)
              dlPaths := st.dlPaths ++ [q] } := by
        rw [downloadAll_cons]
        unfold download_video
        rw [hdl]
      rw [heq]
      obtain ⟨h1, h2, h3, h4, h5⟩ := ih
        { st with
          dlIdx := st.dlIdx + 1
          fs := fsWrite st.fs q (Content.downloaded url)
          dlPaths := st.dlPaths ++ [q] }
      refine ⟨h1, h2, h3, ?_, ?_⟩
      · intro p hp
        rcases h4 p hp with hp2 | hp2
        · rcases List.mem_append.1 hp2 with hp3 | hp3
          · exact Or.inl hp3
          · refine Or.inr ⟨st.dlIdx, ?_⟩
            rw [hdl]
            rw [List.mem_singleton.1 hp3]
        · exact Or.inr hp2
      · intro e he hk
        apply h5 e _ hk
        apply mem_fsWrite_of_ne _ he
        intro hq
        exact hk st.dlIdx (by rw [hdl]; simp [dlKey, hq])

theorem downloadAll_ok (env : Env) : ∀ (urls : List String) (st : St),
    (∀ i, i < urls.length → ∃ p, env.dl (st.dlIdx + i) = DlOutcome.ok p) →
    ∃ st', downloadAll env urls st = (Except.ok (), st') ∧
      st'.dlPaths.length = st.dlPaths.length + urls.length ∧
      st'.runTrace = st.runTrace ∧
      st'.clipPaths = st.clipPaths ∧
      st'.runIdx = st.runIdx ∧
      st'.dlIdx = st.dlIdx + urls.length := by
  intro urls
  induction urls with
  | nil =>
    intro st _
    exact ⟨st, rfl, rfl, rfl, rfl, rfl, rfl⟩
  | cons url rest ih =>
    intro st h
    obtain ⟨q, hq⟩ := h 0 (by simp)
    have hq0 : env.dl st.dlIdx = DlOutcome.ok q := hq
    have heq : downloadAll env (url :: rest) st =
        downloadAll env rest
          { st with
            dlIdx := st.dlIdx + 1
            fs := fsWrite st.fs q (Content.downloaded url)
            dlPaths := st.dlPaths ++ [q] } := by
      rw [downloadAll_cons]
      unfold download_video
      rw [hq0]
    obtain ⟨st', h1, h2, h3, h4, h5, h6⟩ := ih
      { st with
        dlIdx := st.dlIdx + 1
        fs := fsWrite st.fs q (Content.downloaded url)
        dlPaths := st.dlPaths ++ [q] }
      (by
        intro i hi
        obtain ⟨p, hp⟩ := h (i + 1) (by simpa using Nat.succ_lt_succ hi)
        refine ⟨p, ?_⟩
        rw [show st.dlIdx + 1 + i = st.dlIdx + (i + 1) by omega]
        exact hp)
    refine ⟨st', by rw [heq]; exact h1, ?_, h3, h4, h5, ?_⟩
    · rw [h2]
      show (st.dlPaths ++ [q]).length + rest.length = st.dlPaths.length + (url :: rest).length
      simp only [List.length_append, List.length_cons, List.length_nil]
      omega
    · rw [h6]
      show st.dlIdx + 1 + rest.length = st.dlIdx + (url :: rest).length
      simp only [List.length_cons]
      omega

/-! ## Validation lemmas -/

theorem validate_sections_none (n : Nat) : ∀ parts : List VideoSection,
    (∀ s ∈ parts, ¬ badSection n s) → validate_sections n parts = none := by
  intro parts
  induction parts with
  | nil => intro _; rfl
  | cons s rest ih =>
    intro h
    have hs := h s (List.mem_cons_self s rest)
    unfold validate_sections
    rw [if_neg (fun hc => hs (hc.elim Or.inl (fun h2 => Or.inr (Or.inl h2)))),
        if_neg (fun hc => hs (hc.elim (fun a => Or.inr (Or.inr (Or.inl a)))
          (fun b => Or.inr (Or.inr (Or.inr b)))))]
    exact ih (fun x hx => h x (List.mem_cons_of_mem _ hx))

theorem validate_sections_bad (n : Nat) : ∀ parts : List VideoSection,
    (∃ s ∈ parts, badSection n s) →
    ∃ d, validate_sections n parts = some (Exc.httpExc 400 d) := by
  intro parts
  induction parts with
  | nil =>
    rintro ⟨s, hs, _⟩
    exact absurd hs (List.not_mem_nil s)
  | cons s rest ih =>
    rintro ⟨x, hx, hbad⟩
    unfold validate_sections
    by_cases h1 : s.video_id < 0 ∨ (n : Int) ≤ s.video_id
    · refine ⟨"Invalid video_id " ++ toString s.video_id ++ " for section " ++
        toString s.sectionId, ?_⟩
      rw [if_pos h1]
    · rw [if_neg h1]
      by_cases h2 : s.start_time < 0 ∨ s.end_time ≤ s.start_time
      · refine ⟨"Invalid time range for section " ++ toString s.sectionId, ?_⟩
        rw [if_pos h2]
      · rw [if_neg h2]
        apply ih
        rcases List.mem_cons.1 hx with hx2 | hx2
        · exfalso
          rw [hx2] at hbad
          rcases hbad with hb | hb | hb | hb
          · exact h1 (Or.inl hb)
          · exact h1 (Or.inr hb)
          · exact h2 (Or.inl hb)
          · exact h2 (Or.inr hb)
        · exact ⟨x, hx2, hbad⟩

/-! ## Clipping lemmas -/

theorem mem_ite_fsWrite {fs : FS} {e : String × Content} {p : String} {c : Content}
    {cond : Prop} [Decidable cond] (hmem : e ∈ fs) (hne : e.1 ≠ p) :
    e ∈ (if cond then fsWrite fs p c else fs) := by
  split
  · exact mem_fsWrite_of_ne _ hmem hne
  · exact hmem

theorem clipAll_cons (env : Env) (s : VideoSection) (rest : List VideoSection) (st : St) :
    clipAll env (s :: rest) st =
      match clipSection env s st with
      | (Except.error e, st') => (Except.error e, st')
      | (Except.ok _, st') => clipAll env rest st' :=
  rfl

theorem clipSection_pres (env : Env) (s : VideoSection) (st : St) :
    ((clipSection env s st).2.dlPaths = st.dlPaths) ∧
    ((clipSection env s st).2.dlIdx = st.dlIdx) ∧
    (∀ p, p ∈ (clipSection env s st).2.clipPaths →
       p ∈ st.clipPaths ∨ ∃ sid, p = clip_path_of env.tempDir sid) ∧
    (∀ e, e ∈ st.fs → (∀ sid, e.1 ≠ clip_path_of env.tempDir sid) →
       e ∈ (clipSection env s st).2.fs) := by
  simp only [clipSection]
  repeat' split
  all_goals refine ⟨rfl, rfl, fun p hp => ?_, fun e he hk => ?_⟩
  all_goals try exact mem_fsWrite_of_ne _ he (hk s.sectionId)
  all_goals try exact he
  all_goals try exact Or.inl hp
  all_goals rcases List.mem_append.1 hp with hp2 | hp2
  all_goals try exact Or.inl hp2
  all_goals exact Or.inr ⟨s.sectionId, List.mem_singleton.1 hp2⟩

theorem clipAll_pres (env : Env) : ∀ (parts : List VideoSection) (st : St),
    ((clipAll env parts st).2.dlPaths = st.dlPaths) ∧
    ((clipAll env parts st).2.dlIdx = st.dlIdx) ∧
    (∀ p, p ∈ (clipAll env parts st).2.clipPaths →
       p ∈ st.clipPaths ∨ ∃ sid, p = clip_path_of env.tempDir sid) ∧
    (∀ e, e ∈ st.fs → (∀ sid, e.1 ≠ clip_path_of env.tempDir sid) →
       e ∈ (clipAll env parts st).2.fs) := by
  intro parts
  induction parts with
  | nil =>
    intro st
    exact ⟨rfl, rfl, fun p hp => Or.inl hp, fun e he _ => he⟩
  | cons s rest ih =>
    intro st
    rw [clipAll_cons]
    obtain ⟨hs1, hs2, hs3, hs4⟩ := clipSection_pres env s st
    rcases hcs : clipSection env s st with ⟨res, st2⟩
    rw [hcs] at hs1 hs2 hs3 hs4
    cases res with
    | error e =>
      exact ⟨hs1, hs2, hs3, hs4⟩
    | ok u =>
      obtain ⟨h1, h2, h3, h4⟩ := ih st2
      refine ⟨h1.trans hs1, h2.trans hs2, ?_, ?_⟩
      · intro p hp
        rcases h3 p hp with hp2 | hp2
        · exact hs3 p hp2
        · exact Or.inr hp2
      · intro e he hk
        exact h4 e (hs4 e he hk) hk

theorem clipSection_good (env : Env) (s : VideoSection) (st : St)
    (hd : (env.run st.runIdx).duration ≤ 300)
    (hc : (env.run st.runIdx).code = 0)
    (ho : (env.run st.runIdx).createsOutput = true) :
    clipSection env s st =
      (Except.ok (),
       { st with
         runIdx := st.runIdx + 1
         runTrace := st.runTrace ++ [FfmpegCmd.clip (st.dlPaths.getD s.video_id.toNat "")
           s.start_time (s.end_time - s.start_time) (clip_path_of env.tempDir s.sectionId)]
         fs := fsWrite st.fs (clip_path_of env.tempDir s.sectionId)
           (Content.clipped (st.dlPaths.getD s.video_id.toNat "") s.start_time
             (s.end_time - s.start_time))
         clipPaths := st.clipPaths ++ [clip_path_of env.tempDir s.sectionId] }) := by
  simp only [clipSection]
  rw [if_pos (And.intro hd ho)]
  rw [if_neg (not_lt.mpr hd)]
  rw [if_neg (fun hne => hne hc)]
  rw [fsExists_write_self]
  rw [if_neg (by decide : ¬ ((true : Bool) = false))]

theorem clipAll_ok (env : Env) : ∀ (parts : List VideoSection) (st : St),
    (∀ j, j < parts.length → (env.run (st.runIdx + j)).duration ≤ 300 ∧
       (env.run (st.runIdx + j)).code = 0 ∧ (env.run (st.runIdx + j)).createsOutput = true) →
    ∃ st', clipAll env parts st = (Except.ok (), st') ∧
      st'.clipPaths = st.clipPaths ++ parts.map (fun s => clip_path_of env.tempDir s.sectionId) ∧
      st'.dlPaths = st.dlPaths ∧
      st'.dlIdx = st.dlIdx ∧
      st'.runIdx = st.runIdx + parts.length := by
  intro parts
  induction parts with
  | nil =>
    intro st _
    exact ⟨st, rfl, by simp, rfl, rfl, rfl⟩
  | cons s rest ih =>
    intro st h
    obtain ⟨hd, hc, ho⟩ := h 0 (by simp)
    have heq := clipSection_good env s st hd hc ho
    obtain ⟨st', h1, h2, h3, h4, h5⟩ := ih
      { st with
        runIdx := st.runIdx + 1
        runTrace := st.runTrace ++ [FfmpegCmd.clip (st.dlPaths.getD s.video_id.toNat "")
          s.start_time (s.end_time - s.start_time) (clip_path_of env.tempDir s.sectionId)]
        fs := fsWrite st.fs (clip_path_of env.tempDir s.sectionId)
          (Content.clipped (st.dlPaths.getD s.video_id.toNat "") s.start_time
            (s.end_time - s.start_time))
        clipPaths := st.clipPaths ++ [clip_path_of env.tempDir s.sectionId] }
      (by
        intro j hj
        have hgood := h (j + 1) (by simpa using Nat.succ_lt_succ hj)
        rwa [show st.runIdx + (j + 1) = st.runIdx + 1 + j from by omega] at hgood)
    refine ⟨st', ?_, ?_, h3, h4, ?_⟩
    · rw [clipAll_cons, heq]
      exact h1
    · rw [h2]
      show st.clipPaths ++ [clip_path_of env.tempDir s.sectionId] ++
          rest.map (fun s => clip_path_of env.tempDir s.sectionId) =
        st.clipPaths ++ (s :: rest).map (fun s => clip_path_of env.tempDir s.sectionId)
      simp [List.append_assoc]
    · rw [h5]
      show st.runIdx + 1 + rest.length = st.runIdx + (s :: rest).length
      simp only [List.length_cons]
      omega

/-! ## Merge lemmas -/

theorem manifestClips_write_self (fs : FS) (p : String) (l : List String) :
    manifestClips (fsWrite fs p (Content.manifest l)) p = l := by
  simp [manifestClips, fsLookup_write_self]

theorem mergeClips_pres (env : Env) (st : St) :
    ((mergeClips env st).2.dlPaths = st.dlPaths) ∧
    ((mergeClips env st).2.dlIdx = st.dlIdx) ∧
    ((mergeClips env st).2.clipPaths = st.clipPaths) ∧
    (∀ e, e ∈ st.fs → e.1 ≠ concat_path env.tempDir → e.1 ≠ merged_path env.tempDir →
       e ∈ (mergeClips env st).2.fs) := by
  simp only [mergeClips]
  repeat' split
  all_goals refine ⟨rfl, rfl, rfl, fun e he h1 h2 => ?_⟩
  all_goals try exact
    mem_fsWrite_of_ne _ (mem_fsWrite_of_ne _ (mem_fsWrite_of_ne _ he h1) h2) h2
  all_goals try exact mem_fsWrite_of_ne _ (mem_fsWrite_of_ne _ he h1) h2
  all_goals exact mem_fsWrite_of_ne _ he h1

theorem mergeClips_timeout (env : Env) (st : St)
    (hd : 600 < (env.run st.runIdx).duration) :
    (mergeClips env st).1 = Except.error (Exc.timeoutExpired 600) := by
  simp only [mergeClips]
  rw [if_pos hd]

theorem mergeClips_copy_ok (env : Env) (st : St)
    (hd : (env.run st.runIdx).duration ≤ 600)
    (hc : (env.run st.runIdx).code = 0) :
    mergeClips env st =
      (Except.ok (),
       { st with
         runIdx := st.runIdx + 1
         runTrace := st.runTrace ++
           [FfmpegCmd.concatCopy (concat_path env.tempDir) (merged_path env.tempDir)]
         fs := if (env.run st.runIdx).duration ≤ 600 ∧
                  (env.run st.runIdx).createsOutput = true then
                 fsWrite (fsWrite st.fs (concat_path env.tempDir)
                     (Content.manifest st.clipPaths))
                   (merged_path env.tempDir)
                   (Content.merged MergeVia.streamCopy st.clipPaths)
               else fsWrite st.fs (concat_path env.tempDir)
                 (Content.manifest st.clipPaths) }) := by
  simp only [mergeClips, manifestClips_write_self]
  rw [if_neg (not_lt.mpr hd)]
  rw [if_neg (fun hne => hne hc)]

theorem mergeClips_reencode (env : Env) (st : St)
    (h1d : (env.run st.runIdx).duration ≤ 600)
    (h1c : (env.run st.runIdx).code ≠ 0)
    (h2d : (env.run (st.runIdx + 1)).duration ≤ 600) :
    ((mergeClips env st).2.runTrace =
      st.runTrace ++ [FfmpegCmd.concatCopy (concat_path env.tempDir) (merged_path env.tempDir),
        FfmpegCmd.concatReencode (concat_path env.tempDir) (merged_path env.tempDir)]) ∧
    ((env.run (st.runIdx + 1)).code ≠ 0 →
      (mergeClips env st).1 = Except.error (Exc.httpExc 500
        ("Failed to merge videos: " ++ (env.run (st.runIdx + 1)).stderr))) ∧
    ((env.run (st.runIdx + 1)).code = 0 → (mergeClips env st).1 = Except.ok ()) := by
  simp only [mergeClips]
  rw [if_neg (not_lt.mpr h1d), if_pos h1c, if_neg (not_lt.mpr h2d)]
  refine ⟨?_, ?_, ?_⟩
  · split
    · simp
    · simp
  · intro h2c
    rw [if_pos h2c]
  · intro h2c
    rw [if_neg (fun hne => hne h2c)]

theorem mergeClips_no_reencode (env : Env) (st : St)
    (hd : (env.run st.runIdx).duration ≤ 600)
    (hc : (env.run st.runIdx).code = 0) :
    (mergeClips env st).1 = Except.ok () ∧
    (mergeClips env st).2.runTrace = st.runTrace ++
      [FfmpegCmd.concatCopy (concat_path env.tempDir) (merged_path env.tempDir)] := by
  rw [mergeClips_copy_ok env st hd hc]
  exact ⟨rfl, rfl⟩

/-! ## Pipeline composition lemmas -/

theorem run_body_dl_error {env : Env} {urls : List String} (parts : List VideoSection)
    {st : St} {e0 : Exc} {st1 : St}
    (h : downloadAll env urls st = (Except.error e0, st1)) :
    run_body env urls parts st = (Except.error e0, st1) := by
  unfold run_body
  rw [h]

theorem run_body_dl_ok {env : Env} {urls : List String} (parts : List VideoSection)
    {st : St} {u : Unit} {st1 : St}
    (h : downloadAll env urls st = (Except.ok u, st1)) :
    run_body env urls parts st = validatePhase env urls.length parts st1 := by
  unfold run_body
  rw [h]

theorem validatePhase_some {n : Nat} {parts : List VideoSection} (env : Env) (st1 : St)
    {e0 : Exc} (hv : validate_sections n parts = some e0) :
    validatePhase env n parts st1 = (Except.error e0, st1) := by
  unfold validatePhase
  rw [hv]

theorem validatePhase_none {n : Nat} {parts : List VideoSection} (env : Env) (st1 : St)
    (hv : validate_sections n parts = none) :
    validatePhase env n parts st1 = clipPhase env parts st1 := by
  unfold validatePhase
  rw [hv]

theorem clipPhase_error {env : Env} {parts : List VideoSection} {st1 : St} {e0 : Exc} {st2 : St}
    (h : clipAll env parts st1 = (Except.error e0, st2)) :
    clipPhase env parts st1 = (Except.error e0, st2) := by
  unfold clipPhase
  rw [h]

theorem clipPhase_ok {env : Env} {parts : List VideoSection} {st1 : St} {u : Unit} {st2 : St}
    (h : clipAll env parts st1 = (Except.ok u, st2)) :
    clipPhase env parts st1 = mergePhase env st2 := by
  unfold clipPhase
  rw [h]

theorem mergePhase_error {env : Env} {st2 : St} {e0 : Exc} {st3 : St}
    (h : mergeClips env st2 = (Except.error e0, st3)) :
    mergePhase env st2 = (Except.error e0, st3) := by
  unfold mergePhase
  rw [h]

theorem mergePhase_ok {env : Env} {st2 : St} {u : Unit} {st3 : St}
    (h : mergeClips env st2 = (Except.ok u, st3)) :
    mergePhase env st2 = readMerged env st3 := by
  unfold mergePhase
  rw [h]

theorem readMerged_snd (env : Env) (st3 : St) : (readMerged env st3).2 = st3 := by
  unfold readMerged
  cases fsLookup st3.fs (merged_path env.tempDir) <;> rfl

theorem readMerged_some {env : Env} {st3 : St} {c : Content}
    (h : fsLookup st3.fs (merged_path env.tempDir) = some c) :
    readMerged env st3 = (Except.ok c, st3) := by
  unfold readMerged
  rw [h]

theorem run_body_obs (env : Env) (urls : List String) (parts : List VideoSection) (st : St) :
    (∀ p, p ∈ (run_body env urls parts st).2.dlPaths →
        p ∈ st.dlPaths ∨ ∃ i, env.dl i = DlOutcome.ok p) ∧
    (∀ p, p ∈ (run_body env urls parts st).2.clipPaths →
        p ∈ st.clipPaths ∨ ∃ sid, p = clip_path_of env.tempDir sid) ∧
    (∀ e, e ∈ st.fs →
        (∀ i, dlKey (env.dl i) ≠ some e.1) →
        (∀ sid, e.1 ≠ clip_path_of env.tempDir sid) →
        e.1 ≠ concat_path env.tempDir →
        e.1 ≠ merged_path env.tempDir →
        e ∈ (run_body env urls parts st).2.fs) := by
  obtain ⟨hd1, hd2, hd3, hd4, hd5⟩ := downloadAll_pres env urls st
  rcases hda : downloadAll env urls st with ⟨res, st1⟩
  rw [hda] at hd1 hd2 hd3 hd4 hd5
  cases res with
  | error e0 =>
    rw [run_body_dl_error parts hda]
    exact ⟨hd4, fun p hp => Or.inl (hd2 ▸ hp), fun e he hk hcl h1 h2 => hd5 e he hk⟩
  | ok u =>
    rw [run_body_dl_ok parts hda]
    cases hv : validate_sections urls.length parts with
    | some e0 =>
      rw [validatePhase_some env st1 hv]
      exact ⟨hd4, fun p hp => Or.inl (hd2 ▸ hp), fun e he hk hcl h1 h2 => hd5 e he hk⟩
    | none =>
      rw [validatePhase_none env st1 hv]
      obtain ⟨hc1, hc2, hc3, hc4⟩ := clipAll_pres env parts st1
      rcases hca : clipAll env parts st1 with ⟨res2, st2⟩
      rw [hca] at hc1 hc2 hc3 hc4
      have hb1 : ∀ p, p ∈ st2.dlPaths → p ∈ st.dlPaths ∨ ∃ i, env.dl i = DlOutcome.ok p :=
        fun p hp => hd4 p (hc1 ▸ hp)
      have hb2 : ∀ p, p ∈ st2.clipPaths →
          p ∈ st.clipPaths ∨ ∃ sid, p = clip_path_of env.tempDir sid := by
        intro p hp
        rcases hc3 p hp with hp2 | hp2
        · exact Or.inl (hd2 ▸ hp2)
        · exact Or.inr hp2
      have hb3 : ∀ e, e ∈ st.fs →
          (∀ i, dlKey (env.dl i) ≠ some e.1) →
          (∀ sid, e.1 ≠ clip_path_of env.tempDir sid) →
          e ∈ st2.fs :=
        fun e he hk hcl => hc4 e (hd5 e he hk) hcl
      cases res2 with
      | error e0 =>
        rw [clipPhase_error hca]
        exact ⟨hb1, hb2, fun e he hk hcl h1 h2 => hb3 e he hk hcl⟩
      | ok u2 =>
        rw [clipPhase_ok hca]
        obtain ⟨hm1, hm2, hm3, hm4⟩ := mergeClips_pres env st2
        rcases hmc : mergeClips env st2 with ⟨res3, st3⟩
        rw [hmc] at hm1 hm2 hm3 hm4
        have hg1 : ∀ p, p ∈ st3.dlPaths → p ∈ st.dlPaths ∨ ∃ i, env.dl i = DlOutcome.ok p :=
          fun p hp => hb1 p (hm1 ▸ hp)
        have hg2 : ∀ p, p ∈ st3.clipPaths →
            p ∈ st.clipPaths ∨ ∃ sid, p = clip_path_of env.tempDir sid :=
          fun p hp => hb2 p (hm3 ▸ hp)
        have hg3 : ∀ e, e ∈ st.fs →
            (∀ i, dlKey (env.dl i) ≠ some e.1) →
            (∀ sid, e.1 ≠ clip_path_of env.tempDir sid) →
            e.1 ≠ concat_path env.tempDir →
            e.1 ≠ merged_path env.tempDir →
            e ∈ st3.fs :=
          fun e he hk hcl h1 h2 => hm4 e (hb3 e he hk hcl) h1 h2
        cases res3 with
        | error e0 =>
          rw [mergePhase_error hmc]
          exact ⟨hg1, hg2, hg3⟩
        | ok u3 =>
          rw [mergePhase_ok hmc, readMerged_snd env st3]
          exact ⟨hg1, hg2, hg3⟩

theorem run_body_invalid (env : Env) (urls : List String) (parts : List VideoSection) (st : St)
    (hbad : ∃ s ∈ parts, badSection urls.length s) :
    (∃ e0, (run_body env urls parts st).1 = Except.error e0) ∧
    (run_body env urls parts st).2.runTrace = st.runTrace := by
  obtain ⟨hd1, hd2, hd3, hd4, hd5⟩ := downloadAll_pres env urls st
  rcases hda : downloadAll env urls st with ⟨res, st1⟩
  rw [hda] at hd1
  cases res with
  | error e0 =>
    rw [run_body_dl_error parts hda]
    exact ⟨⟨e0, rfl⟩, hd1⟩
  | ok u =>
    obtain ⟨d, hv⟩ := validate_sections_bad urls.length parts hbad
    rw [run_body_dl_ok parts hda, validatePhase_some env st1 hv]
    exact ⟨⟨_, rfl⟩, hd1⟩

/-! ## Glue lemmas for the orchestrator and the route handler -/

theorem camRun_def (env : Env) (urls : List String) (parts : List VideoSection) (fs0 : FS) :
    camRun env urls parts fs0 = clip_and_merge_videos env urls parts (St.init fs0) :=
  rfl

theorem clip_and_merge_videos_eq (env : Env) (urls : List String) (parts : List VideoSection)
    (st : St) (fs' : FS)
    (h : cleanupRun
          (run_body env urls parts { st with fs := fsWrite st.fs env.tempDir Content.dir }).2.fs
          (run_body env urls parts { st with fs := fsWrite st.fs env.tempDir Content.dir }).2.dlPaths
          (run_body env urls parts { st with fs := fsWrite st.fs env.tempDir Content.dir }).2.clipPaths
          env.tempDir = Except.ok fs') :
    clip_and_merge_videos env urls parts st =
      ((run_body env urls parts { st with fs := fsWrite st.fs env.tempDir Content.dir }).1,
       { (run_body env urls parts { st with fs := fsWrite st.fs env.tempDir Content.dir }).2 with
         fs := fs' }) := by
  simp only [clip_and_merge_videos]
  rw [h]

theorem clip_and_merge_eq (env : Env) (urls : List String) (parts : List VideoSection)
    (fs0 : FS) (res : Except Exc Content) (st' : St)
    (hu : urls.isEmpty = false) (hp : parts.isEmpty = false)
    (h : clip_and_merge_videos env urls parts (St.init fs0) = (res, st')) :
    clip_and_merge env urls parts fs0 = (excToResp res, st') := by
  unfold clip_and_merge
  rw [if_neg (show ¬ (urls.isEmpty = true) from by rw [hu]; exact (by decide)),
      if_neg (show ¬ (parts.isEmpty = true) from by rw [hp]; exact (by decide))]
  rcases res with e | c
  · cases e <;> (rw [h]; rfl)
  · rw [h]
    rfl

/-! ## Claim C2 -/

/-- **C2**: for every clip-and-merge run — success or any failure — every
tracked downloaded source file, every tracked clip file, and the scratch
workspace directory are deleted before the run returns (nothing remains
under the scratch directory), and the guarded cleanup never raises, in
particular when a target is already gone.  Freshness hypothesis: the
temp paths handed out for downloads differ from the scratch directory
path (as `tempfile` guarantees). -/
theorem c2_cleanup_unconditional (env : Env) (urls : List String) (parts : List VideoSection)
    (fs0 : FS)
    (hfresh : ∀ i, dlKey (env.dl i) ≠ some env.tempDir) :
    (∀ (fs : FS) (d c : List String) (t : String), ∃ fs2, cleanupRun fs d c t = Except.ok fs2) ∧
    (∀ p, p ∈ (camRun env urls parts fs0).2.dlPaths →
       fsExists (camRun env urls parts fs0).2.fs p = false) ∧
    (∀ p, p ∈ (camRun env urls parts fs0).2.clipPaths →
       fsExists (camRun env urls parts fs0).2.fs p = false) ∧
    (∀ e, e ∈ (camRun env urls parts fs0).2.fs → pathHasPref env.tempDir e.1 = false) := by
  obtain ⟨ho1, ho2, ho3⟩ := run_body_obs env urls parts
    { St.init fs0 with fs := fsWrite (St.init fs0).fs env.tempDir Content.dir }
  obtain ⟨fs', hceq, hsub, habsD, habsC, htf, hpref⟩ :=
    cleanupRun_spec
      (run_body env urls parts
        { St.init fs0 with fs := fsWrite (St.init fs0).fs env.tempDir Content.dir }).2.fs
      (run_body env urls parts
        { St.init fs0 with fs := fsWrite (St.init fs0).fs env.tempDir Content.dir }).2.dlPaths
      (run_body env urls parts
        { St.init fs0 with fs := fsWrite (St.init fs0).fs env.tempDir Content.dir }).2.clipPaths
      env.tempDir
  have hfinal := clip_and_merge_videos_eq env urls parts (St.init fs0) fs' hceq
  have hdirmem : (env.tempDir, Content.dir) ∈
      (run_body env urls parts
        { St.init fs0 with fs := fsWrite (St.init fs0).fs env.tempDir Content.dir }).2.fs := by
    apply ho3 (env.tempDir, Content.dir) (mem_fsWrite_self _ _ _)
    · exact hfresh
    · exact fun sid => Ne.symm (clip_path_of_ne env.tempDir sid)
    · exact Ne.symm (concat_path_ne env.tempDir)
    · exact Ne.symm (merged_path_ne env.tempDir)
  have hdne : ∀ p, p ∈ (run_body env urls parts
      { St.init fs0 with fs := fsWrite (St.init fs0).fs env.tempDir Content.dir }).2.dlPaths →
      p ≠ env.tempDir := by
    intro p hp
    rcases ho1 p hp with hp2 | hp2
    · exact absurd hp2 (List.not_mem_nil p)
    · obtain ⟨i, hi⟩ := hp2
      intro hpt
      apply hfresh i
      rw [hi, hpt]
      rfl
  have hcne : ∀ p, p ∈ (run_body env urls parts
      { St.init fs0 with fs := fsWrite (St.init fs0).fs env.tempDir Content.dir }).2.clipPaths →
      p ≠ env.tempDir := by
    intro p hp
    rcases ho2 p hp with hp2 | hp2
    · exact absurd hp2 (List.not_mem_nil p)
    · obtain ⟨sid, hsid⟩ := hp2
      rw [hsid]
      exact clip_path_of_ne env.tempDir sid
  refine ⟨?_, ?_, ?_, ?_⟩
  · intro fs d c t
    obtain ⟨fs2, h2, _⟩ := cleanupRun_spec fs d c t
    exact ⟨fs2, h2⟩
  · intro p hp
    rw [camRun_def, hfinal] at hp ⊢
    exact habsD p hp
  · intro p hp
    rw [camRun_def, hfinal] at hp ⊢
    exact habsC p hp
  · intro e he
    rw [camRun_def, hfinal] at he
    exact hpref Content.dir hdirmem hdne hcne e he

/-- **C2 witness**: a concrete successful run; the downloaded temp file is
tracked and is gone from the final filesystem. -/
theorem c2_witness :
    fsExists (camRun envC2w ["u"] [⟨1, 0, 0, 2⟩] []).2.fs "/tmp/c2.mp4" = false :=
  (c2_cleanup_unconditional envC2w ["u"] [⟨1, 0, 0, 2⟩] []
    (fun i => by
      show dlKey (DlOutcome.ok "/tmp/c2.mp4") ≠ some "/scratch/c2"
      decide)).2.1 "/tmp/c2.mp4" (by decide)

/-! ## Claim C1 -/

/-- **C1 counterexample**: `sourceUrls = ["…"]`, one section with
`videoIndex = 1` out of range.  The request does fail with a 400 validation
error, but it performs one download first (`dlPaths.length = 1`), refuting
"zero downloads". -/
theorem c1_counterexample :
    (camRun envC1 ["http://a/v.mp4"] partsC1 []).1 =
      Except.error (Exc.httpExc 400 "Invalid video_id 1 for section 1") ∧
    (camRun envC1 ["http://a/v.mp4"] partsC1 []).2.dlPaths.length = 1 := by
  exact ⟨by decide, by decide⟩

/-- **C1 (amended)**: with an out-of-range `videoIndex` present and all
downloads succeeding, the request fails with a 400 validation error, runs
zero ffmpeg commands (zero clips, zero merges), and leaves no temp file it
tracked and no scratch directory behind — but it first downloads every
source URL (`len(sourceUrls)` downloads, not zero). -/
theorem c1_invalid_index_amended (env : Env) (urls : List String) (parts : List VideoSection)
    (fs0 : FS)
    (hdl : ∀ i, i < urls.length → ∃ p, env.dl i = DlOutcome.ok p)
    (hbad : ∃ s ∈ parts, s.video_id < 0 ∨ (urls.length : Int) ≤ s.video_id) :
    (∃ d, (camRun env urls parts fs0).1 = Except.error (Exc.httpExc 400 d)) ∧
    (camRun env urls parts fs0).2.runTrace = [] ∧
    (camRun env urls parts fs0).2.dlPaths.length = urls.length ∧
    (∀ p, p ∈ (camRun env urls parts fs0).2.dlPaths →
       fsExists (camRun env urls parts fs0).2.fs p = false) ∧
    fsExists (camRun env urls parts fs0).2.fs env.tempDir = false := by
  obtain ⟨st1, hda, hlen, htr, hcp, hridx, hdidx⟩ := downloadAll_ok env urls
    { St.init fs0 with fs := fsWrite (St.init fs0).fs env.tempDir Content.dir }
    (by
      intro i hi
      obtain ⟨p, hp⟩ := hdl i hi
      exact ⟨p, by simpa [St.init] using hp⟩)
  obtain ⟨d, hv⟩ := validate_sections_bad urls.length parts
    (by
      obtain ⟨s, hs, hb⟩ := hbad
      exact ⟨s, hs, hb.elim Or.inl (fun h2 => Or.inr (Or.inl h2))⟩)
  have hrb : run_body env urls parts
      { St.init fs0 with fs := fsWrite (St.init fs0).fs env.tempDir Content.dir } =
      (Except.error (Exc.httpExc 400 d), st1) := by
    rw [run_body_dl_ok parts hda, validatePhase_some env st1 hv]
  obtain ⟨fs', hceq, hsub, habsD, habsC, htf, hpref⟩ :=
    cleanupRun_spec st1.fs st1.dlPaths st1.clipPaths env.tempDir
  have hceq2 : cleanupRun
      (run_body env urls parts
        { St.init fs0 with fs := fsWrite (St.init fs0).fs env.tempDir Content.dir }).2.fs
      (run_body env urls parts
        { St.init fs0 with fs := fsWrite (St.init fs0).fs env.tempDir Content.dir }).2.dlPaths
      (run_body env urls parts
        { St.init fs0 with fs := fsWrite (St.init fs0).fs env.tempDir Content.dir }).2.clipPaths
      env.tempDir = Except.ok fs' := by
    rw [hrb]
    exact hceq
  have hfinal := clip_and_merge_videos_eq env urls parts (St.init fs0) fs' hceq2
  rw [camRun_def, hfinal, hrb]
  refine ⟨⟨d, rfl⟩, htr, ?_, fun p hp => habsD p hp, htf⟩
  rw [hlen]
  show 0 + urls.length = urls.length
  omega

/-- **C1 witness**: the amended claim evaluated at the counterexample input:
no ffmpeg command ran. -/
theorem c1_witness :
    (camRun envC1 ["http://a/v.mp4"] partsC1 []).2.runTrace = [] :=
  (c1_invalid_index_amended envC1 ["http://a/v.mp4"] partsC1 []
    (fun _ _ => ⟨"/tmp/c1.mp4", rfl⟩) (by decide)).2.1

/-! ## Claim C3 -/

/-- **C3**: a single invalid section anywhere (out-of-range index, negative
start, or `end ≤ start`) means no ffmpeg invocation happens at all: the run
trace of external commands is empty, whatever the downloads did. -/
theorem c3_fail_fast_no_tool_invocation (env : Env) (urls : List String)
    (parts : List VideoSection) (fs0 : FS)
    (hbad : ∃ s ∈ parts, badSection urls.length s) :
    (camRun env urls parts fs0).2.runTrace = [] := by
  obtain ⟨⟨e0, hres⟩, htr⟩ := run_body_invalid env urls parts
    { St.init fs0 with fs := fsWrite (St.init fs0).fs env.tempDir Content.dir } hbad
  obtain ⟨fs', hceq, _⟩ :=
    cleanupRun_spec
      (run_body env urls parts
        { St.init fs0 with fs := fsWrite (St.init fs0).fs env.tempDir Content.dir }).2.fs
      (run_body env urls parts
        { St.init fs0 with fs := fsWrite (St.init fs0).fs env.tempDir Content.dir }).2.dlPaths
      (run_body env urls parts
        { St.init fs0 with fs := fsWrite (St.init fs0).fs env.tempDir Content.dir }).2.clipPaths
      env.tempDir
  have hfinal := clip_and_merge_videos_eq env urls parts (St.init fs0) fs' hceq
  rw [camRun_def, hfinal]
  exact htr

/-- **C3 witness**: one valid-looking and one empty-range section; no ffmpeg
command runs. -/
theorem c3_witness :
    (camRun envC3w ["u"] [⟨1, 0, 0, 2⟩, ⟨2, 0, 5, 5⟩] []).2.runTrace = [] :=
  c3_fail_fast_no_tool_invocation envC3w ["u"] [⟨1, 0, 0, 2⟩, ⟨2, 0, 5, 5⟩] []
    ⟨⟨2, 0, 5, 5⟩, by decide, Or.inr (Or.inr (Or.inr (by decide)))⟩

/-! ## Claim C4 -/

/-- **C4**: for every valid request whose downloads and tool runs succeed,
the merged output is built from the concat manifest listing the clip files
in caller-supplied list order — each section's clip named by its
`sectionId`, concatenated by list position regardless of the numeric order
of the identifiers. -/
theorem c4_concat_in_list_order (env : Env) (urls : List String) (parts : List VideoSection)
    (fs0 : FS)
    (hdl : ∀ i, i < urls.length → ∃ p, env.dl i = DlOutcome.ok p)
    (hrun : ∀ i, (env.run i).duration ≤ 300 ∧ (env.run i).code = 0 ∧
      (env.run i).createsOutput = true)
    (hvalid : ∀ s ∈ parts, 0 ≤ s.video_id ∧ s.video_id < (urls.length : Int) ∧
      0 ≤ s.start_time ∧ s.start_time < s.end_time) :
    (camRun env urls parts fs0).1 =
      Except.ok (Content.merged MergeVia.streamCopy
        (parts.map (fun s => clip_path_of env.tempDir s.sectionId))) := by
  obtain ⟨st1, hda, hlen, htr, hcp, hridx, hdidx⟩ := downloadAll_ok env urls
    { St.init fs0 with fs := fsWrite (St.init fs0).fs env.tempDir Content.dir }
    (by
      intro i hi
      obtain ⟨p, hp⟩ := hdl i hi
      exact ⟨p, by simpa [St.init] using hp⟩)
  have hv : validate_sections urls.length parts = none := by
    apply validate_sections_none
    intro s hs hb
    obtain ⟨h1, h2, h3, h4⟩ := hvalid s hs
    rcases hb with hb | hb | hb | hb
    · exact absurd hb (not_lt.mpr h1)
    · exact absurd hb (not_le.mpr h2)
    · exact absurd hb (not_lt.mpr h3)
    · exact absurd hb (not_le.mpr h4)
  obtain ⟨st2, hca, hclips, hcd, hcdi, hcr⟩ := clipAll_ok env parts st1
    (fun j _ => hrun (st1.runIdx + j))
  have hclips2 : st2.clipPaths = parts.map (fun s => clip_path_of env.tempDir s.sectionId) := by
    rw [hclips, hcp]
    show ([] : List String) ++ parts.map (fun s => clip_path_of env.tempDir s.sectionId) = _
    exact List.nil_append _
  have hmc := mergeClips_copy_ok env st2
    (le_trans (hrun st2.runIdx).1 (by norm_num)) (hrun st2.runIdx).2.1
  rw [if_pos (And.intro (le_trans (hrun st2.runIdx).1 (by norm_num))
    (hrun st2.runIdx).2.2)] at hmc
  obtain ⟨fs', hceq, _⟩ :=
    cleanupRun_spec
      (run_body env urls parts
        { St.init fs0 with fs := fsWrite (St.init fs0).fs env.tempDir Content.dir }).2.fs
      (run_body env urls parts
        { St.init fs0 with fs := fsWrite (St.init fs0).fs env.tempDir Content.dir }).2.dlPaths
      (run_body env urls parts
        { St.init fs0 with fs := fsWrite (St.init fs0).fs env.tempDir Content.dir }).2.clipPaths
      env.tempDir
  have hfinal := clip_and_merge_videos_eq env urls parts (St.init fs0) fs' hceq
  rw [camRun_def, hfinal, run_body_dl_ok parts hda, validatePhase_none env st1 hv,
    clipPhase_ok hca, mergePhase_ok hmc, readMerged_some (fsLookup_write_self _ _ _), hclips2]

/-- **C4 witness**: two sections whose `sectionId`s (7 then 3) are in the
opposite of numeric order; the manifest behind the merged output lists the
clips in list order. -/
theorem c4_witness :
    (camRun envC4w ["u"] [⟨7, 0, 0, 2⟩, ⟨3, 0, 2, 4⟩] []).1 =
      Except.ok (Content.merged MergeVia.streamCopy
        [clip_path_of "/scratch/c4" 7, clip_path_of "/scratch/c4" 3]) :=
  c4_concat_in_list_order envC4w ["u"] [⟨7, 0, 0, 2⟩, ⟨3, 0, 2, 4⟩] []
    (fun _ _ => ⟨"/tmp/c4.mp4", rfl⟩)
    (fun i => ⟨by show (1 : Rat) ≤ 300; decide, rfl, rfl⟩)
    (by decide)

/-! ## Claim C5 -/

/-- **C5 counterexample**: the stream-copy concat exits 0 with stderr
`"boom"` but produces no output file.  The request fails with the fixed
message `Merged video file not created`, which does not contain the tool's
stderr — refuting "fails with a merge error carrying the tool's stderr …
when the expected output file is absent after a zero exit". -/
theorem c5_counterexample :
    (camRun envC5 ["u"] [⟨1, 0, 0, 2⟩] []).1 =
      Except.error (Exc.httpExc 500 "Merged video file not created") ∧
    ¬ ("boom".data <:+: "Merged video file not created".data) := by
  exact ⟨by rfl, by decide⟩

/-- **C5 (amended)**: the engine invokes the stream-copy concat first; it
invokes the re-encode concat if and only if the copy invocation exits
non-zero; when the fallback also exits non-zero it fails with a merge error
carrying the fallback's stderr; but when the expected output file is absent
after a zero exit it fails with the fixed `Merged video file not created`
message, which does not carry the tool's stderr (shown: the response is the
same whatever the tool wrote to stderr). -/
theorem c5_merge_fallback_amended (env : Env) (st : St)
    (h1d : (env.run st.runIdx).duration ≤ 600)
    (h2d : (env.run (st.runIdx + 1)).duration ≤ 600) :
    ((env.run st.runIdx).code = 0 →
       (mergeClips env st).1 = Except.ok () ∧
       (mergeClips env st).2.runTrace = st.runTrace ++
         [FfmpegCmd.concatCopy (concat_path env.tempDir) (merged_path env.tempDir)]) ∧
    ((env.run st.runIdx).code ≠ 0 →
       (mergeClips env st).2.runTrace = st.runTrace ++
         [FfmpegCmd.concatCopy (concat_path env.tempDir) (merged_path env.tempDir),
          FfmpegCmd.concatReencode (concat_path env.tempDir) (merged_path env.tempDir)] ∧
       ((env.run (st.runIdx + 1)).code ≠ 0 →
          (mergeClips env st).1 = Except.error (Exc.httpExc 500
            ("Failed to merge videos: " ++ (env.run (st.runIdx + 1)).stderr)))) ∧
    (∀ serr, (camRun (envC5s serr) ["u"] [⟨1, 0, 0, 2⟩] []).1 =
       Except.error (Exc.httpExc 500 "Merged video file not created")) := by
  refine ⟨?_, ?_, ?_⟩
  · intro hc
    exact mergeClips_no_reencode env st h1d hc
  · intro hc
    obtain ⟨ht, herr, _⟩ := mergeClips_reencode env st h1d hc h2d
    exact ⟨ht, herr⟩
  · intro serr
    rfl

/-- **C5 witness**: with a clean stream-copy success, the engine returns ok
and its trace holds the copy invocation only (no re-encode). -/
theorem c5_witness :
    (mergeClips envC5w (St.init [])).1 = Except.ok () ∧
    (mergeClips envC5w (St.init [])).2.runTrace = (St.init []).runTrace ++
      [FfmpegCmd.concatCopy (concat_path envC5w.tempDir) (merged_path envC5w.tempDir)] :=
  (c5_merge_fallback_amended envC5w (St.init [])
    (by show (1 : Rat) ≤ 600; decide)
    (by show (1 : Rat) ≤ 600; decide)).1 (by show (0 : Int) = 0; rfl)

/-! ## Claim C8 -/

theorem clipSection_timeout (env : Env) (s : VideoSection) (st : St)
    (hd : 300 < (env.run st.runIdx).duration) :
    (clipSection env s st).1 = Except.error (Exc.timeoutExpired 300) := by
  simp only [clipSection]
  rw [if_pos hd]

theorem clipAll_head_timeout (env : Env) (s : VideoSection) (rest : List VideoSection) (st : St)
    (hd : 300 < (env.run st.runIdx).duration) :
    ∃ st2, clipAll env (s :: rest) st = (Except.error (Exc.timeoutExpired 300), st2) := by
  have h1 := clipSection_timeout env s st hd
  rw [clipAll_cons]
  rcases hcs : clipSection env s st with ⟨res, st2⟩
  rw [hcs] at h1
  cases res with
  | error e =>
    injection h1 with h2
    rw [h2]
    exact ⟨st2, rfl⟩
  | ok v => exact absurd h1 (by simp)

theorem mergeClips_timeout_pair (env : Env) (st : St)
    (hd : 600 < (env.run st.runIdx).duration) :
    ∃ st2, mergeClips env st = (Except.error (Exc.timeoutExpired 600), st2) := by
  have h1 := mergeClips_timeout env st hd
  rcases hmc : mergeClips env st with ⟨res, st2⟩
  rw [hmc] at h1
  refine ⟨st2, ?_⟩
  have h2 : res = Except.error (Exc.timeoutExpired 600) := h1
  rw [h2]

/-- **C8**: a clip invocation running past its 300s bound, or a merge
invocation running past its 600s bound, aborts the pipeline with
`subprocess.TimeoutExpired` — an exception kind distinct from the
`HTTPException` kind used for non-zero-exit tool failures — and the route
handler surfaces it as a 500 whose detail starts with the catch-all
`Internal server error:` wrapper, a detail that can never equal the
`Failed to clip section …` detail of a generic execution failure. -/
theorem c8_timeout_distinct_kind (env : Env) (urls : List String) (parts : List VideoSection)
    (fs0 : FS) (q : VideoSection) (qs : List VideoSection)
    (hparts : parts = q :: qs)
    (hu : urls.isEmpty = false)
    (hdl : ∀ i, i < urls.length → ∃ p, env.dl i = DlOutcome.ok p)
    (hvalid : ∀ s ∈ parts, 0 ≤ s.video_id ∧ s.video_id < (urls.length : Int) ∧
      0 ≤ s.start_time ∧ s.start_time < s.end_time) :
    (300 < (env.run 0).duration →
       (camRun env urls parts fs0).1 = Except.error (Exc.timeoutExpired 300) ∧
       (clip_and_merge env urls parts fs0).1 =
         Except.error (500, "Internal server error: " ++ timeoutMsg 300)) ∧
    ((∀ j, j < parts.length → (env.run j).duration ≤ 300 ∧ (env.run j).code = 0 ∧
        (env.run j).createsOutput = true) →
     600 < (env.run parts.length).duration →
       (camRun env urls parts fs0).1 = Except.error (Exc.timeoutExpired 600) ∧
       (clip_and_merge env urls parts fs0).1 =
         Except.error (500, "Internal server error: " ++ timeoutMsg 600)) ∧
    (∀ b s d, Exc.timeoutExpired b ≠ Exc.httpExc s d) ∧
    (∀ b sid serr, ("Internal server error: " ++ timeoutMsg b) ≠
       ("Failed to clip section " ++ sid ++ ": " ++ serr)) := by
  obtain ⟨st1, hda, hlen, htr, hcp, hridx, hdidx⟩ := downloadAll_ok env urls
    { St.init fs0 with fs := fsWrite (St.init fs0).fs env.tempDir Content.dir }
    (by
      intro i hi
      obtain ⟨p, hp⟩ := hdl i hi
      exact ⟨p, by simpa [St.init] using hp⟩)
  have hv : validate_sections urls.length parts = none := by
    apply validate_sections_none
    intro s hs hb
    obtain ⟨h1, h2, h3, h4⟩ := hvalid s hs
    rcases hb with hb | hb | hb | hb
    · exact absurd hb (not_lt.mpr h1)
    · exact absurd hb (not_le.mpr h2)
    · exact absurd hb (not_lt.mpr h3)
    · exact absurd hb (not_le.mpr h4)
  have hridx0 : st1.runIdx = 0 := hridx
  refine ⟨?_, ?_, fun b s d h => Exc.noConfusion h, ?_⟩
  · intro ht
    have ht1 : 300 < (env.run st1.runIdx).duration := by rw [hridx0]; exact ht
    subst hparts
    obtain ⟨st2, hca⟩ := clipAll_head_timeout env q qs st1 ht1
    have hrb : run_body env urls (q :: qs)
        { St.init fs0 with fs := fsWrite (St.init fs0).fs env.tempDir Content.dir } =
        (Except.error (Exc.timeoutExpired 300), st2) := by
      rw [run_body_dl_ok (q :: qs) hda, validatePhase_none env st1 hv, clipPhase_error hca]
    obtain ⟨fs', hceq, _⟩ :=
      cleanupRun_spec
        (run_body env urls (q :: qs)
          { St.init fs0 with fs := fsWrite (St.init fs0).fs env.tempDir Content.dir }).2.fs
        (run_body env urls (q :: qs)
          { St.init fs0 with fs := fsWrite (St.init fs0).fs env.tempDir Content.dir }).2.dlPaths
        (run_body env urls (q :: qs)
          { St.init fs0 with fs := fsWrite (St.init fs0).fs env.tempDir Content.dir }).2.clipPaths
        env.tempDir
    have hfinal := clip_and_merge_videos_eq env urls (q :: qs) (St.init fs0) fs' hceq
    have hpair : clip_and_merge_videos env urls (q :: qs) (St.init fs0) =
        (Except.error (Exc.timeoutExpired 300),
         { (run_body env urls (q :: qs)
             { St.init fs0 with fs := fsWrite (St.init fs0).fs env.tempDir Content.dir }).2 with
           fs := fs' }) := by
      rw [hfinal, hrb]
    constructor
    · rw [camRun_def, hpair]
    · rw [clip_and_merge_eq env urls (q :: qs) fs0 _ _ hu rfl hpair]
      rfl
  · intro hgood ht
    have hca' := clipAll_ok env parts st1
      (by
        intro j hj
        rw [hridx0]
        have := hgood j hj
        rwa [show (0 : Nat) + j = j from by omega])
    obtain ⟨st2, hca, hclips, hcd, hcdi, hcr⟩ := hca'
    have hcr0 : st2.runIdx = parts.length := by
      rw [hcr, hridx0]
      omega
    have ht2 : 600 < (env.run st2.runIdx).duration := by rw [hcr0]; exact ht
    obtain ⟨st3, hmc⟩ := mergeClips_timeout_pair env st2 ht2
    have hrb : run_body env urls parts
        { St.init fs0 with fs := fsWrite (St.init fs0).fs env.tempDir Content.dir } =
        (Except.error (Exc.timeoutExpired 600), st3) := by
      rw [run_body_dl_ok parts hda, validatePhase_none env st1 hv, clipPhase_ok hca,
        mergePhase_error hmc]
    obtain ⟨fs', hceq, _⟩ :=
      cleanupRun_spec
        (run_body env urls parts
          { St.init fs0 with fs := fsWrite (St.init fs0).fs env.tempDir Content.dir }).2.fs
        (run_body env urls parts
          { St.init fs0 with fs := fsWrite (St.init fs0).fs env.tempDir Content.dir }).2.dlPaths
        (run_body env urls parts
          { St.init fs0 with fs := fsWrite (St.init fs0).fs env.tempDir Content.dir }).2.clipPaths
        env.tempDir
    have hfinal := clip_and_merge_videos_eq env urls parts (St.init fs0) fs' hceq
    have hpair : clip_and_merge_videos env urls parts (St.init fs0) =
        (Except.error (Exc.timeoutExpired 600),
         { (run_body env urls parts
             { St.init fs0 with fs := fsWrite (St.init fs0).fs env.tempDir Content.dir }).2 with
           fs := fs' }) := by
      rw [hfinal, hrb]
    constructor
    · rw [camRun_def, hpair]
    · rw [clip_and_merge_eq env urls parts fs0 _ _ hu
        (by rw [hparts]; rfl) hpair]
      rfl
  · intro b sid serr h
    have hd := congrArg String.data h
    rw [String.data_append, String.data_append, String.data_append,
      String.data_append] at hd
    have h1 : ("Internal server error: ").data = 'I' :: "nternal server error: ".data := rfl
    have h2 : ("Failed to clip section ").data = 'F' :: "ailed to clip section ".data := rfl
    rw [h1, h2] at hd
    simp only [List.cons_append] at hd
    injection hd with hh _
    exact absurd hh (by decide)

/-- **C8 witness**: a clip run lasting 301s; the pipeline aborts with the
timeout exception. -/
theorem c8_witness :
    (camRun envC8w ["u"] [⟨1, 0, 0, 2⟩] []).1 = Except.error (Exc.timeoutExpired 300) ∧
    (clip_and_merge envC8w ["u"] [⟨1, 0, 0, 2⟩] []).1 =
      Except.error (500, "Internal server error: " ++ timeoutMsg 300) :=
  (c8_timeout_distinct_kind envC8w ["u"] [⟨1, 0, 0, 2⟩] [] ⟨1, 0, 0, 2⟩ [] rfl rfl
    (fun _ _ => ⟨"/tmp/c8.mp4", rfl⟩) (by decide)).1
    (by show (300 : Rat) < 301; decide)

/-! ## Claim C6 -/

/-- **C6** (code bug): on the time-validation error paths the capture handle
is NOT released (`cap.release()` only happens at line 78, after the read):
`extract_frame` returns with the released flag `false` for `t = -1` and for
`t = 20` on a 10-second video, while the decode-failure path does release
(flag `true`).  The spec requires release on every exit path. -/
theorem c6_capture_leak_on_invalid_time :
    extract_frame capC6 (-1) =
      (Except.error (Exc.httpExc 400 "Time must be non-negative"), false) ∧
    extract_frame capC6 20 =
      (Except.error (Exc.httpExc 400 (timeExceedsMsg 20 10)), false) ∧
    extract_frame capC6d 1 =
      (Except.error (Exc.httpExc 400 "Failed to extract frame from video"), true) := by
  have hd6 : durationOf capC6 = 10 := by
    norm_num [durationOf, capC6]
  have hd6d : durationOf capC6d = 10 := by
    norm_num [durationOf, capC6d]
  refine ⟨?_, ?_, ?_⟩
  · simp only [extract_frame]
    rw [if_neg (by decide : ¬ (capC6.opened = false)),
      if_pos (by decide : (-1 : Rat) < 0)]
  · simp only [extract_frame, hd6]
    rw [if_neg (by decide : ¬ (capC6.opened = false)),
      if_neg (by decide : ¬ ((20 : Rat) < 0)),
      if_pos (And.intro (by decide : (0 : Rat) < 10) (by decide : (10 : Rat) < 20))]
  · simp only [extract_frame, hd6d]
    rw [if_neg (by decide : ¬ (capC6d.opened = false)),
      if_neg (by decide : ¬ ((1 : Rat) < 0)),
      if_neg (fun hc => absurd hc.2 (by decide : ¬ ((10 : Rat) < 1)))]
    rfl

/-! ## Claim C7 -/

/-- **C7 counterexample**: a container reporting `fps = 30 > 0` and
`totalFrames = 0` has determinable duration `0`; for `t = 1 > 0 = duration`
the claim demands a client-input failure, but the code skips the
upper-bound check (`duration > 0` is false) and succeeds. -/
theorem c7_counterexample :
    0 < capC7.fps ∧ durationOf capC7 < 1 ∧ (extract_frame capC7 1).1 = Except.ok 7 := by
  have hd : durationOf capC7 = 0 := by
    norm_num [durationOf, capC7]
  refine ⟨by decide, by rw [hd]; decide, ?_⟩
  simp only [extract_frame, hd]
  rw [if_neg (by decide : ¬ (capC7.opened = false)),
    if_neg (by decide : ¬ ((1 : Rat) < 0)),
    if_neg (fun hc => absurd hc.1 (lt_irrefl 0))]
  rfl

/-- **C7 (amended)**: on an opened video, `extract_frame` fails with the
non-negativity 400 for every `t < 0`; it fails with the range 400 for
`t > duration` whenever the computed duration is positive (`fps > 0` and
`totalFrames > 0`); and when the computed duration is `≤ 0` — `fps ≤ 0`
**or** `totalFrames ≤ 0` — the upper-bound check is skipped and the call
proceeds to the decode step. -/
theorem c7_time_validation_amended (cap : Capture) (t : Rat) (hop : cap.opened = true) :
    (t < 0 → (extract_frame cap t).1 =
       Except.error (Exc.httpExc 400 "Time must be non-negative")) ∧
    (0 ≤ t → 0 < durationOf cap → durationOf cap < t →
       (extract_frame cap t).1 =
         Except.error (Exc.httpExc 400 (timeExceedsMsg t (durationOf cap)))) ∧
    (0 ≤ t → durationOf cap ≤ 0 →
       (extract_frame cap t).1 =
         Except.error (Exc.httpExc 400 "Failed to extract frame from video") ∨
       ∃ fr, (extract_frame cap t).1 = Except.ok fr) := by
  simp only [extract_frame]
  rw [hop]
  rw [if_neg (by decide : ¬ ((true : Bool) = false))]
  refine ⟨?_, ?_, ?_⟩
  · intro ht
    rw [if_pos ht]
  · intro ht0 hdur hlt
    rw [if_neg (not_lt.mpr ht0), if_pos (And.intro hdur hlt)]
  · intro ht0 hdur
    rw [if_neg (not_lt.mpr ht0),
      if_neg (fun hc => absurd hc.1 (not_lt.mpr hdur))]
    rcases hrf : cap.readFrame (pyTrunc (t * cap.fps)) with _ | fr
    · exact Or.inl rfl
    · exact Or.inr ⟨fr, rfl⟩

/-- **C7 witness**: the amended lower-bound clause at `t = -1` on an
ordinary opened video. -/
theorem c7_witness :
    (extract_frame capC7w (-1)).1 =
      Except.error (Exc.httpExc 400 "Time must be non-negative") :=
  (c7_time_validation_amended capC7w (-1) rfl).1 (by decide)

/-! ## Claim C9 -/

theorem fsLookup_write_of_ne (p q : String) (c : Content) (h : q ≠ p) : ∀ fs : FS,
    fsLookup (fsWrite fs p c) q = fsLookup fs q := by
  have hqp : (q == p) = false := beq_eq_false_iff_ne.mpr h
  intro fs
  show List.lookup q ((p, c) :: fs.filter (fun e => e.1 != p)) = List.lookup q fs
  rw [List.lookup_cons, hqp]
  show List.lookup q (fs.filter (fun e => e.1 != p)) = List.lookup q fs
  induction fs with
  | nil => rfl
  | cons e t ih =>
    rcases e with ⟨k, v⟩
    rw [List.filter_cons]
    by_cases hk : k = p
    · rw [if_neg (by simp [hk])]
      rw [List.lookup_cons]
      have hqk : (q == k) = false := beq_eq_false_iff_ne.mpr (by rw [hk]; exact h)
      rw [hqk]
      exact ih
    · rw [if_pos (by simp [hk])]
      rw [List.lookup_cons, List.lookup_cons]
      cases hqk : (q == k)
      · rw [hqk] at *
        exact ih
      · rfl

theorem concat_path_ne_merged_path (t : String) : concat_path t ≠ merged_path t := by
  intro h
  have hd := congrArg String.data h
  rw [show concat_path t = t ++ "/concat_list.txt" from rfl,
      show merged_path t = t ++ "/merged_video.mp4" from rfl,
      String.data_append, String.data_append] at hd
  exact absurd (List.append_cancel_left hd) (by decide)

theorem clipAll_append (env : Env) : ∀ (xs ys : List VideoSection) (st stMid : St),
    clipAll env xs st = (Except.ok (), stMid) →
    clipAll env (xs ++ ys) st = clipAll env ys stMid := by
  intro xs
  induction xs with
  | nil =>
    intro ys st stMid h
    injection h with h1 h2
    rw [List.nil_append, h2]
  | cons s rest ih =>
    intro ys st stMid h
    rw [List.cons_append, clipAll_cons]
    rw [clipAll_cons] at h
    rcases hcs : clipSection env s st with ⟨res, st2⟩
    rw [hcs] at h
    cases res with
    | error e =>
      injection h with h1 _
      exact absurd h1 (by simp)
    | ok u =>
      exact ih ys st2 stMid h

/-- **C9**: for **every** request whose section list contains two sections
`a` (earlier) and `b` (later) sharing the same `sectionId` — list
`l1 ++ [a] ++ l2 ++ [b] ++ l3`, every section in range, every tool run
succeeding — the validation step accepts the request (no uniqueness check);
both clips target the same deterministically named file; right after `a`'s
clip step that file holds `a`'s clip, and right after `b`'s clip step it
holds `b`'s clip (the later clip overwrote the earlier one); the clip list
fed to the concat manifest names each section's path by list position, so
the shared path appears once per section; and the `concat_list.txt` written
by the merge step holds exactly that list. -/
theorem c9_duplicate_ids_general (env : Env) (st : St) (n : Nat)
    (l1 l2 l3 : List VideoSection) (a b : VideoSection)
    (hdup : a.sectionId = b.sectionId)
    (hrun : ∀ i, (env.run i).duration ≤ 300 ∧ (env.run i).code = 0 ∧
      (env.run i).createsOutput = true)
    (hvalid : ∀ s ∈ l1 ++ a :: (l2 ++ b :: l3), 0 ≤ s.video_id ∧
      s.video_id < (n : Int) ∧ 0 ≤ s.start_time ∧ s.start_time < s.end_time) :
    validate_sections n (l1 ++ a :: (l2 ++ b :: l3)) = none ∧
    clip_path_of env.tempDir b.sectionId = clip_path_of env.tempDir a.sectionId ∧
    (∃ stA, clipAll env (l1 ++ [a]) st = (Except.ok (), stA) ∧
       fsLookup stA.fs (clip_path_of env.tempDir a.sectionId) =
         some (Content.clipped (st.dlPaths.getD a.video_id.toNat "")
           a.start_time (a.end_time - a.start_time))) ∧
    (∃ stB, clipAll env (l1 ++ a :: (l2 ++ [b])) st = (Except.ok (), stB) ∧
       fsLookup stB.fs (clip_path_of env.tempDir a.sectionId) =
         some (Content.clipped (st.dlPaths.getD b.video_id.toNat "")
           b.start_time (b.end_time - b.start_time))) ∧
    (clipAll env (l1 ++ a :: (l2 ++ b :: l3)) st).2.clipPaths =
      st.clipPaths ++ (l1 ++ a :: (l2 ++ b :: l3)).map
        (fun s => clip_path_of env.tempDir s.sectionId) ∧
    (∃ stC, clipAll env (l1 ++ a :: (l2 ++ b :: l3)) st = (Except.ok (), stC) ∧
       (mergeClips env stC).1 = Except.ok () ∧
       fsLookup (mergeClips env stC).2.fs (concat_path env.tempDir) =
         some (Content.manifest (st.clipPaths ++ (l1 ++ a :: (l2 ++ b :: l3)).map
           (fun s => clip_path_of env.tempDir s.sectionId)))) := by
  obtain ⟨stC, hcaC, hclipsC, hdlC, _, _⟩ :=
    clipAll_ok env (l1 ++ a :: (l2 ++ b :: l3)) st (fun j _ => hrun (st.runIdx + j))
  refine ⟨?_, ?_, ?_, ?_, ?_, ?_⟩
  · apply validate_sections_none
    intro s hs hb
    obtain ⟨h1, h2, h3, h4⟩ := hvalid s hs
    rcases hb with hb | hb | hb | hb
    · exact absurd hb (not_lt.mpr h1)
    · exact absurd hb (not_le.mpr h2)
    · exact absurd hb (not_lt.mpr h3)
    · exact absurd hb (not_le.mpr h4)
  · rw [hdup]
  · obtain ⟨st1, hca1, hcp1, hdl1, _, _⟩ :=
      clipAll_ok env l1 st (fun j _ => hrun (st.runIdx + j))
    have hstep := clipSection_good env a st1
      (hrun st1.runIdx).1 (hrun st1.runIdx).2.1 (hrun st1.runIdx).2.2
    refine ⟨(clipSection env a st1).2, ?_, ?_⟩
    · rw [clipAll_append env l1 [a] st st1 hca1, clipAll_cons, hstep]
      rfl
    · rw [hstep, hdl1]
      exact fsLookup_write_self _ _ _
  · rw [hdup]
    rw [show l1 ++ a :: (l2 ++ [b]) = (l1 ++ a :: l2) ++ [b] from by simp]
    obtain ⟨st2, hca2, hcp2, hdl2, _, _⟩ :=
      clipAll_ok env (l1 ++ a :: l2) st (fun j _ => hrun (st.runIdx + j))
    have hstep := clipSection_good env b st2
      (hrun st2.runIdx).1 (hrun st2.runIdx).2.1 (hrun st2.runIdx).2.2
    refine ⟨(clipSection env b st2).2, ?_, ?_⟩
    · rw [clipAll_append env (l1 ++ a :: l2) [b] st st2 hca2, clipAll_cons, hstep]
      rfl
    · rw [hstep, hdl2]
      exact fsLookup_write_self _ _ _
  · rw [hcaC]
    exact hclipsC
  · have hmc := mergeClips_copy_ok env stC
      (le_trans (hrun stC.runIdx).1 (by norm_num)) (hrun stC.runIdx).2.1
    rw [if_pos (And.intro (le_trans (hrun stC.runIdx).1 (by norm_num))
      (hrun stC.runIdx).2.2)] at hmc
    refine ⟨stC, hcaC, ?_, ?_⟩
    · rw [hmc]
    · rw [hmc]
      show fsLookup
        (fsWrite (fsWrite stC.fs (concat_path env.tempDir) (Content.manifest stC.clipPaths))
          (merged_path env.tempDir) (Content.merged MergeVia.streamCopy stC.clipPaths))
        (concat_path env.tempDir) = _
      rw [fsLookup_write_of_ne (merged_path env.tempDir) (concat_path env.tempDir) _
        (concat_path_ne_merged_path env.tempDir)]
      rw [fsLookup_write_self, hclipsC]

/-- **C9 witness**: the general theorem at a concrete request — two sections
with `sectionId = 5`; after the second section's clip step the shared file
holds the second section's clip (start 3, duration 4-3). -/
theorem c9_witness :
    ∃ stB, clipAll envC9 partsC9 stC9 = (Except.ok (), stB) ∧
      fsLookup stB.fs (clip_path_of "/scratch/c9" 5) =
        some (Content.clipped "/tmp/c9.mp4" 3 ((4 : Rat) - 3)) :=
  (c9_duplicate_ids_general envC9 stC9 1 [] [] [] ⟨5, 0, 0, 2⟩ ⟨5, 0, 3, 4⟩ rfl
    (fun i => ⟨by show (1 : Rat) ≤ 300; decide, rfl, rfl⟩) (by decide)).2.2.2.1

/-! ## Claim C10 -/

/-- **C10**: when streaming a download fails after the temp file was created,
the request fails with the 400 download error, and the partially written
temp file survives the request — neither `download_video` nor the
orchestrator's cleanup (which only unlinks paths recorded in
`downloaded_videos`/`clip_files` and removes the scratch directory)
deletes it. -/
theorem c10_partial_download_survives (env : Env) (u msg p : String) (fs0 : FS)
    (q : VideoSection) (qs : List VideoSection)
    (hdl : env.dl 0 = DlOutcome.streamFail p msg)
    (hp : pathHasPref env.tempDir p = false) :
    (clip_and_merge env [u] (q :: qs) fs0).1 =
      Except.error (400, "Failed to download video: " ++ msg) ∧
    (p, Content.incompleteDownload u) ∈ (clip_and_merge env [u] (q :: qs) fs0).2.fs := by
  have hdl' : env.dl ({ St.init fs0 with
      fs := fsWrite (St.init fs0).fs env.tempDir Content.dir } : St).dlIdx =
      DlOutcome.streamFail p msg := hdl
  have heq : downloadAll env [u]
      { St.init fs0 with fs := fsWrite (St.init fs0).fs env.tempDir Content.dir } =
      (Except.error (Exc.httpExc 400 ("Failed to download video: " ++ msg)),
       { St.init fs0 with
         dlIdx := ({ St.init fs0 with
           fs := fsWrite (St.init fs0).fs env.tempDir Content.dir } : St).dlIdx + 1
         fs := fsWrite (fsWrite (St.init fs0).fs env.tempDir Content.dir) p
           (Content.incompleteDownload u) }) := by
    rw [downloadAll_cons]
    unfold download_video
    rw [hdl']
  have hrb := run_body_dl_error (q :: qs) heq
  have hdirmem : (env.tempDir, Content.dir) ∈
      fsWrite (fsWrite (St.init fs0).fs env.tempDir Content.dir) p
        (Content.incompleteDownload u) :=
    mem_fsWrite_of_ne _ (mem_fsWrite_self _ _ _) (Ne.symm (ne_of_not_pref hp))
  have hex : fsExists (fsWrite (fsWrite (St.init fs0).fs env.tempDir Content.dir) p
      (Content.incompleteDownload u)) env.tempDir = true :=
    fsExists_of_mem hdirmem
  have hclean : cleanupRun
      (fsWrite (fsWrite (St.init fs0).fs env.tempDir Content.dir) p
        (Content.incompleteDownload u))
      ([] : List String) ([] : List String) env.tempDir =
      Except.ok (fsRmtree
        (fsWrite (fsWrite (St.init fs0).fs env.tempDir Content.dir) p
          (Content.incompleteDownload u)) env.tempDir) := by
    show Except.ok (if fsExists (fsWrite (fsWrite (St.init fs0).fs env.tempDir Content.dir) p
        (Content.incompleteDownload u)) env.tempDir = true then
        fsRmtree (fsWrite (fsWrite (St.init fs0).fs env.tempDir Content.dir) p
          (Content.incompleteDownload u)) env.tempDir
      else fsWrite (fsWrite (St.init fs0).fs env.tempDir Content.dir) p
        (Content.incompleteDownload u)) = _
    rw [if_pos hex]
  have hceq : cleanupRun
      (run_body env [u] (q :: qs)
        { St.init fs0 with fs := fsWrite (St.init fs0).fs env.tempDir Content.dir }).2.fs
      (run_body env [u] (q :: qs)
        { St.init fs0 with fs := fsWrite (St.init fs0).fs env.tempDir Content.dir }).2.dlPaths
      (run_body env [u] (q :: qs)
        { St.init fs0 with fs := fsWrite (St.init fs0).fs env.tempDir Content.dir }).2.clipPaths
      env.tempDir = Except.ok (fsRmtree
        (fsWrite (fsWrite (St.init fs0).fs env.tempDir Content.dir) p
          (Content.incompleteDownload u)) env.tempDir) := by
    rw [hrb]
    exact hclean
  have hfinal := clip_and_merge_videos_eq env [u] (q :: qs) (St.init fs0) _ hceq
  have hpair : clip_and_merge_videos env [u] (q :: qs) (St.init fs0) =
      (Except.error (Exc.httpExc 400 ("Failed to download video: " ++ msg)),
       { (run_body env [u] (q :: qs)
           { St.init fs0 with fs := fsWrite (St.init fs0).fs env.tempDir Content.dir }).2 with
         fs := fsRmtree
           (fsWrite (fsWrite (St.init fs0).fs env.tempDir Content.dir) p
             (Content.incompleteDownload u)) env.tempDir }) := by
    rw [hfinal, hrb]
  rw [clip_and_merge_eq env [u] (q :: qs) fs0 _ _ rfl rfl hpair]
  constructor
  · rfl
  · show (p, Content.incompleteDownload u) ∈ fsRmtree
      (fsWrite (fsWrite (St.init fs0).fs env.tempDir Content.dir) p
        (Content.incompleteDownload u)) env.tempDir
    exact mem_fsRmtree.2 ⟨mem_fsWrite_self _ _ _, hp⟩

/-- **C10 witness**: a concrete stream failure; the partial file is present
in the final filesystem while the request failed 400. -/
theorem c10_witness :
    (clip_and_merge envC10w ["u"] [⟨1, 0, 0, 2⟩] []).1 =
      Except.error (400, "Failed to download video: " ++ "connection reset") ∧
    ("/tmp/c10.mp4", Content.incompleteDownload "u") ∈
      (clip_and_merge envC10w ["u"] [⟨1, 0, 0, 2⟩] []).2.fs :=
  c10_partial_download_survives envC10w "u" "connection reset" "/tmp/c10.mp4" []
    ⟨1, 0, 0, 2⟩ [] rfl (by decide)
